import Mathlib

/-!
Verification of the natural-language specification of the mullvadvpn-app
core against a shallow embedding of its source.

The embedding covers:
* `convert_config_to_dbus` from `talpid-wireguard/src/wireguard_kernel/nm_tunnel.rs`,
  together with executable models of the string/base64 formatting it relies on
  (Rust `Display` for IP addresses, socket addresses and CIDR prefixes, and
  standard base64 with padding) and of the corresponding parsers
  (Rust `FromStr`), so that translation round-trip fidelity can be proved.
* The `NetworkManagerTunnel` lifecycle operations (`new`, `stop`, `set_config`,
  `get_tunnel_stats`, `start_daita`, `get_interface_name`) as explicit
  state-passing functions over an environment (`World`) that supplies the
  outcomes of D-Bus and netlink calls; observable side effects (netlink
  mutations, profile removal, log statements) are collected in effect lists.
* `AddressCache::set_address` / `save_to_disk` from `mullvad-api/src/address_cache.rs`.
-/

/-! ## Decimal and hexadecimal digits -/

/-- A decimal ASCII digit, as accepted by Rust `char::to_digit(10)`. -/
def isDecDigit (c : Char) : Bool := 48 ≤ c.toNat && c.toNat ≤ 57

/-- Value of a decimal ASCII digit. -/
def decDigitVal (c : Char) : Nat := c.toNat - 48

/-- A hexadecimal ASCII digit, as accepted by Rust `char::to_digit(16)`. -/
def isHexDigit (c : Char) : Bool :=
  isDecDigit c || (97 ≤ c.toNat && c.toNat ≤ 102) || (65 ≤ c.toNat && c.toNat ≤ 70)

/-- Value of a hexadecimal ASCII digit. -/
def hexDigitVal (c : Char) : Nat :=
  if isDecDigit c then c.toNat - 48
  else if 97 ≤ c.toNat then c.toNat - 87
  else c.toNat - 55

/-- The decimal digit character for `n < 10`, as printed by Rust `Display` for integers. -/
def decDigitChar (n : Nat) : Char := Char.ofNat (48 + n)

/-- The lowercase hex digit character for `n < 16`, as printed by Rust `LowerHex`. -/
def hexDigitChar (n : Nat) : Char :=
  if n < 10 then Char.ofNat (48 + n) else Char.ofNat (87 + n)

theorem decDigitChar_is_dec (n : Nat) (h : n < 10) : isDecDigit (decDigitChar n) = true := by
  interval_cases n <;> decide

theorem decDigitChar_val (n : Nat) (h : n < 10) : decDigitVal (decDigitChar n) = n := by
  interval_cases n <;> decide

theorem decDigitChar_eq_zero (n : Nat) (h : n < 10) (h2 : decDigitChar n = '0') : n = 0 := by
  interval_cases n <;> first | rfl | exact absurd h2 (by decide)

theorem hexDigitChar_is_hex (n : Nat) (h : n < 16) : isHexDigit (hexDigitChar n) = true := by
  interval_cases n <;> decide

theorem hexDigitChar_val (n : Nat) (h : n < 16) : hexDigitVal (hexDigitChar n) = n := by
  interval_cases n <;> decide

theorem isHexDigit_of_isDecDigit (c : Char) (h : isDecDigit c = true) : isHexDigit c = true := by
  simp [isHexDigit, h]

theorem isDecDigit_false_of_isHexDigit_false (c : Char) (h : isHexDigit c = false) :
    isDecDigit c = false := by
  by_cases hd : isDecDigit c = true
  · simp [isHexDigit, hd] at h
  · simpa using hd

theorem isHexDigit_ne_dot (c : Char) (h : isHexDigit c = true) : c ≠ '.' := by
  intro he
  subst he
  exact absurd h (by decide)

/-! ## Decimal and hexadecimal numerals (Rust `Display` / `LowerHex` on integers) -/

/-- Decimal numeral of `n`, most significant digit first (Rust `Display` for unsigned ints). -/
def natToDec (n : Nat) : List Char :=
  if n < 10 then [decDigitChar n]
  else natToDec (n / 10) ++ [decDigitChar (n % 10)]
decreasing_by exact Nat.div_lt_self (by omega) (by omega)

/-- Lowercase hexadecimal numeral of `n` (Rust `{:x}` formatting, no leading zeros). -/
def natToHex (n : Nat) : List Char :=
  if n < 16 then [hexDigitChar n]
  else natToHex (n / 16) ++ [hexDigitChar (n % 16)]
decreasing_by exact Nat.div_lt_self (by omega) (by omega)

theorem natToDec_ne_nil (n : Nat) : natToDec n ≠ [] := by
  rw [natToDec]
  split <;> simp

theorem natToHex_ne_nil (n : Nat) : natToHex n ≠ [] := by
  rw [natToHex]
  split <;> simp

theorem natToDec_all_dec (n : Nat) : ∀ c ∈ natToDec n, isDecDigit c = true := by
  induction n using Nat.strong_induction_on with
  | _ n ih =>
    rw [natToDec]
    split
    · intro c hc
      rw [List.mem_singleton] at hc
      subst hc
      exact decDigitChar_is_dec n (by omega)
    · intro c hc
      rcases List.mem_append.1 hc with h | h
      · exact ih (n / 10) (Nat.div_lt_self (by omega) (by omega)) c h
      · rw [List.mem_singleton] at h
        subst h
        exact decDigitChar_is_dec _ (Nat.mod_lt _ (by omega))

theorem natToHex_all_hex (n : Nat) : ∀ c ∈ natToHex n, isHexDigit c = true := by
  induction n using Nat.strong_induction_on with
  | _ n ih =>
    rw [natToHex]
    split
    · intro c hc
      rw [List.mem_singleton] at hc
      subst hc
      exact hexDigitChar_is_hex n (by omega)
    · intro c hc
      rcases List.mem_append.1 hc with h | h
      · exact ih (n / 16) (Nat.div_lt_self (by omega) (by omega)) c h
      · rw [List.mem_singleton] at h
        subst h
        exact hexDigitChar_is_hex _ (Nat.mod_lt _ (by omega))

theorem natToDec_foldl (n : Nat) : ∀ acc : Nat,
    (natToDec n).foldl (fun a c => a * 10 + decDigitVal c) acc
      = acc * 10 ^ (natToDec n).length + n := by
  induction n using Nat.strong_induction_on with
  | _ n ih =>
    intro acc
    rw [natToDec]
    split
    · simp [decDigitChar_val n (by omega)]
    · rw [List.foldl_append, List.length_append, ih (n / 10) (Nat.div_lt_self (by omega) (by omega))]
      simp only [List.foldl_cons, List.foldl_nil, List.length_cons, List.length_nil]
      rw [decDigitChar_val _ (Nat.mod_lt _ (by omega))]
      rw [pow_succ]
      have := Nat.div_add_mod n 10
      ring_nf
      omega

theorem natToHex_foldl (n : Nat) : ∀ acc : Nat,
    (natToHex n).foldl (fun a c => a * 16 + hexDigitVal c) acc
      = acc * 16 ^ (natToHex n).length + n := by
  induction n using Nat.strong_induction_on with
  | _ n ih =>
    intro acc
    rw [natToHex]
    split
    · simp [hexDigitChar_val n (by omega)]
    · rw [List.foldl_append, List.length_append, ih (n / 16) (Nat.div_lt_self (by omega) (by omega))]
      simp only [List.foldl_cons, List.foldl_nil, List.length_cons, List.length_nil]
      rw [hexDigitChar_val _ (Nat.mod_lt _ (by omega))]
      rw [pow_succ]
      have := Nat.div_add_mod n 16
      ring_nf
      omega

theorem natToDec_length_le (n k : Nat) (hk : 1 ≤ k) (h : n < 10 ^ k) :
    (natToDec n).length ≤ k := by
  induction n using Nat.strong_induction_on generalizing k with
  | _ n ih =>
    rw [natToDec]
    split
    · simpa using hk
    · have hk2 : 2 ≤ k := by
        by_contra hlt
        have : k = 1 := by omega
        subst this
        simp at h
        omega
      have hdiv : n / 10 < 10 ^ (k - 1) := by
        rw [Nat.div_lt_iff_lt_mul (by omega)]
        calc n < 10 ^ k := h
        _ = 10 ^ (k - 1) * 10 := by
              rw [← pow_succ]
              congr 1
              omega
      have := ih (n / 10) (Nat.div_lt_self (by omega) (by omega)) (k - 1) (by omega) hdiv
      simp only [List.length_append, List.length_cons, List.length_nil]
      omega

theorem natToHex_length_le (n k : Nat) (hk : 1 ≤ k) (h : n < 16 ^ k) :
    (natToHex n).length ≤ k := by
  induction n using Nat.strong_induction_on generalizing k with
  | _ n ih =>
    rw [natToHex]
    split
    · simpa using hk
    · have hk2 : 2 ≤ k := by
        by_contra hlt
        have : k = 1 := by omega
        subst this
        simp at h
        omega
      have hdiv : n / 16 < 16 ^ (k - 1) := by
        rw [Nat.div_lt_iff_lt_mul (by omega)]
        calc n < 16 ^ k := h
        _ = 16 ^ (k - 1) * 16 := by
              rw [← pow_succ]
              congr 1
              omega
      have := ih (n / 16) (Nat.div_lt_self (by omega) (by omega)) (k - 1) (by omega) hdiv
      simp only [List.length_append, List.length_cons, List.length_nil]
      omega

theorem natToDec_head_zero (n : Nat) (h : (natToDec n).head? = some '0') : n = 0 := by
  induction n using Nat.strong_induction_on with
  | _ n ih =>
    rw [natToDec] at h
    split at h
    · simp at h
      exact decDigitChar_eq_zero n (by omega) h
    · rename_i hn
      rcases hcons : natToDec (n / 10) with _ | ⟨c, t⟩
      · exact absurd hcons (natToDec_ne_nil _)
      · rw [hcons] at h
        simp at h
        have : (natToDec (n / 10)).head? = some '0' := by
          rw [hcons, h]
          rfl
        have := ih (n / 10) (Nat.div_lt_self (by omega) (by omega)) this
        omega

theorem natToDec_zero : natToDec 0 = ['0'] := by
  rw [natToDec]
  decide

/-! ## Greedy digit scanning (the shape of `Parser::read_number` in Rust std) -/

theorem takeWhile_append_all {p : Char → Bool} (l rest : List Char)
    (hl : ∀ c ∈ l, p c = true) (hrest : ∀ c, rest.head? = some c → p c = false) :
    (l ++ rest).takeWhile p = l ∧ (l ++ rest).dropWhile p = rest := by
  induction l with
  | nil =>
    simp only [List.nil_append]
    cases rest with
    | nil => simp
    | cons c cs =>
      have := hrest c rfl
      simp [List.takeWhile, List.dropWhile, this]
  | cons c cs ih =>
    have hc := hl c (by simp)
    have := ih (fun x hx => hl x (by simp [hx]))
    simp [List.takeWhile, List.dropWhile, hc, this.1, this.2]

/--
Faithful model of Rust std `Parser::read_number(radix, max_digits, allow_zero_prefix)`:
scan the longest digit prefix, fail on no digits, on more than `maxDigits` digits,
on a forbidden leading zero, or on overflow of the target integer type
(`bound` is `2 ^ bits` of that type; checked arithmetic in the source makes this
equivalent to a final bound check since the accumulator grows monotonically).
On success, return the value and the unconsumed remainder.
-/
def readNumber (isDig : Char → Bool) (digVal : Char → Nat) (radix bound : Nat)
    (maxDigits : Option Nat) (zeroPadOk : Bool) (cs : List Char) : Option (Nat × List Char) :=
  let ds := cs.takeWhile isDig
  let rest := cs.dropWhile isDig
  let tooLong : Bool := match maxDigits with
    | some m => decide (m < ds.length)
    | none => false
  let badZero : Bool := !zeroPadOk && (ds.head? == some '0') && decide (1 < ds.length)
  if ds.isEmpty then none
  else if tooLong then none
  else if badZero then none
  else
    let v := ds.foldl (fun a c => a * radix + digVal c) 0
    if v < bound then some (v, rest) else none

theorem readNumber_none (isDig : Char → Bool) (digVal : Char → Nat) (radix bound : Nat)
    (maxDigits : Option Nat) (zeroPadOk : Bool) (cs : List Char)
    (h : ∀ c, cs.head? = some c → isDig c = false) :
    readNumber isDig digVal radix bound maxDigits zeroPadOk cs = none := by
  have htw : cs.takeWhile isDig = [] := by
    cases cs with
    | nil => simp
    | cons c cs' => simp [List.takeWhile, h c rfl]
  simp [readNumber, htw]

theorem readNumber_some (isDig : Char → Bool) (digVal : Char → Nat) (radix bound : Nat)
    (maxDigits : Option Nat) (zeroPadOk : Bool) (cs : List Char) (v : Nat) (r : List Char)
    (h : readNumber isDig digVal radix bound maxDigits zeroPadOk cs = some (v, r)) :
    ∃ pre, cs = pre ++ r ∧ (∀ c ∈ pre, isDig c = true) ∧ pre ≠ [] := by
  simp only [readNumber] at h
  split at h
  · exact absurd h (by simp)
  · split at h
    · exact absurd h (by simp)
    · split at h
      · exact absurd h (by simp)
      · split at h
        · refine ⟨cs.takeWhile isDig, ?_, fun c hc => List.mem_takeWhile_imp hc, ?_⟩
          · simp only [Option.some.injEq, Prod.mk.injEq] at h
            rw [← h.2, List.takeWhile_append_dropWhile]
          · rename_i hne _ _ _
            simpa [List.isEmpty_iff] using hne
        · exact absurd h (by simp)

theorem readNumber_of_scan (isDig : Char → Bool) (digVal : Char → Nat) (radix bound : Nat)
    (maxDigits : Option Nat) (zeroPadOk : Bool) (cs ds rest : List Char) (v : Nat)
    (htw : cs.takeWhile isDig = ds) (hdw : cs.dropWhile isDig = rest)
    (hne : ds ≠ [])
    (hlen : ∀ m, maxDigits = some m → ds.length ≤ m)
    (hzero : zeroPadOk = true ∨ ds.head? ≠ some '0' ∨ ds.length ≤ 1)
    (hv : ds.foldl (fun a c => a * radix + digVal c) 0 = v) (hb : v < bound) :
    readNumber isDig digVal radix bound maxDigits zeroPadOk cs = some (v, rest) := by
  have hbadZero : (!zeroPadOk && (ds.head? == some '0') && decide (1 < ds.length)) = false := by
    rcases hzero with hz | hz | hz
    · simp [hz]
    · simp [hz]
    · have : ¬ (1 < ds.length) := by omega
      simp [this]
  cases maxDigits with
  | none =>
    simp only [readNumber, htw, hdw, hbadZero, hv]
    simp [List.isEmpty_iff, hne, hb]
  | some m =>
    have hlm : ¬ (m < ds.length) := by
      have := hlen m rfl
      omega
    simp only [readNumber, htw, hdw, hbadZero, hv]
    simp [List.isEmpty_iff, hne, hb, hlm]

theorem readNumber_dec (n bound : Nat) (maxDigits : Option Nat) (zeroPadOk : Bool)
    (rest : List Char) (hb : n < bound)
    (hm : ∀ m, maxDigits = some m → (natToDec n).length ≤ m)
    (hrest : ∀ c, rest.head? = some c → isDecDigit c = false) :
    readNumber isDecDigit decDigitVal 10 bound maxDigits zeroPadOk (natToDec n ++ rest)
      = some (n, rest) := by
  obtain ⟨htw, hdw⟩ := takeWhile_append_all (natToDec n) rest (natToDec_all_dec n) hrest
  have hfold := natToDec_foldl n 0
  simp only [Nat.zero_mul, Nat.zero_add] at hfold
  refine readNumber_of_scan _ _ _ _ _ _ _ _ _ _ htw hdw (natToDec_ne_nil n) hm ?_ hfold hb
  by_cases hh : (natToDec n).head? = some '0'
  · have := natToDec_head_zero n hh
    subst this
    rw [natToDec_zero]
    right
    right
    simp
  · exact Or.inr (Or.inl hh)

theorem readNumber_hex (n bound : Nat) (maxDigits : Option Nat)
    (rest : List Char) (hb : n < bound)
    (hm : ∀ m, maxDigits = some m → (natToHex n).length ≤ m)
    (hrest : ∀ c, rest.head? = some c → isHexDigit c = false) :
    readNumber isHexDigit hexDigitVal 16 bound maxDigits true (natToHex n ++ rest)
      = some (n, rest) := by
  obtain ⟨htw, hdw⟩ := takeWhile_append_all (natToHex n) rest (natToHex_all_hex n) hrest
  have hfold := natToHex_foldl n 0
  simp only [Nat.zero_mul, Nat.zero_add] at hfold
  exact readNumber_of_scan _ _ _ _ _ _ _ _ _ _ htw hdw (natToHex_ne_nil n) hm
    (Or.inl rfl) hfold hb

/-- Consume one expected character (Rust std `Parser::read_given_char`). -/
def expectChar (c : Char) : List Char → Option (List Char)
  | c' :: rest => if c' = c then some rest else none
  | [] => none

theorem expectChar_cons (c : Char) (rest : List Char) : expectChar c (c :: rest) = some rest := by
  simp [expectChar]

/-! ## Base64 (standard alphabet, `=` padding), as used by `PublicKey::to_base64` -/

/-- The standard base64 alphabet. -/
def b64Alphabet : List Char :=
  ['A', 'B', 'C', 'D', 'E', 'F', 'G', 'H', 'I', 'J', 'K', 'L', 'M',
   'N', 'O', 'P', 'Q', 'R', 'S', 'T', 'U', 'V', 'W', 'X', 'Y', 'Z',
   'a', 'b', 'c', 'd', 'e', 'f', 'g', 'h', 'i', 'j', 'k', 'l', 'm',
   'n', 'o', 'p', 'q', 'r', 's', 't', 'u', 'v', 'w', 'x', 'y', 'z',
   '0', '1', '2', '3', '4', '5', '6', '7', '8', '9', '+', '/']

/-- Character for a 6-bit group. -/
def b64Char (n : Nat) : Char := b64Alphabet.getD n '='

/-- 6-bit value of a base64 character, `none` for padding or foreign characters. -/
def b64Val (c : Char) : Option Nat :=
  let i := b64Alphabet.findIdx (fun c' => c' == c)
  if i < 64 then some i else none

theorem b64Val_b64Char : ∀ n, n < 64 → b64Val (b64Char n) = some n := by decide

/-- Standard base64 encoding of a byte sequence, with `=` padding
(the encoding used by the `base64` crate's `STANDARD` engine, which
`PublicKey::to_base64` / `PrivateKey::to_base64` in `talpid-types` call). -/
def b64Encode : List Nat → List Char
  | [] => []
  | [a] => [b64Char (a / 4), b64Char (a % 4 * 16), '=', '=']
  | [a, b] => [b64Char (a / 4), b64Char (a % 4 * 16 + b / 16), b64Char (b % 16 * 4), '=']
  | a :: b :: c :: rest =>
      b64Char (a / 4) :: b64Char (a % 4 * 16 + b / 16) :: b64Char (b % 16 * 4 + c / 64)
        :: b64Char (c % 64) :: b64Encode rest


theorem b64Char_ne_pad : ∀ n, n < 64 → b64Char n ≠ '=' := by decide

/-- Standard base64 decoding, inverse of `b64Encode` on its image: groups of four
characters, with `=` padding allowed only in the final group. -/
def b64Decode : List Char → Option (List Nat)
  | [] => some []
  | c1 :: c2 :: c3 :: c4 :: rest => do
      let d1 ← b64Val c1
      let d2 ← b64Val c2
      if c3 = '=' then
        if c4 = '=' ∧ rest = [] then pure [d1 * 4 + d2 / 16] else none
      else do
        let d3 ← b64Val c3
        if c4 = '=' then
          if rest = [] then pure [d1 * 4 + d2 / 16, d2 % 16 * 16 + d3 / 4] else none
        else do
          let d4 ← b64Val c4
          let tail ← b64Decode rest
          pure ((d1 * 4 + d2 / 16) :: (d2 % 16 * 16 + d3 / 4) :: (d3 % 4 * 64 + d4) :: tail)
  | _ => none

theorem b64_roundtrip : ∀ bytes : List Nat, (∀ b ∈ bytes, b < 256) →
    b64Decode (b64Encode bytes) = some bytes := by
  intro bytes
  induction bytes using b64Encode.induct with
  | case1 => intro _; rfl
  | case2 a =>
    intro h
    have ha : a < 256 := h a (by simp)
    have h1 : a / 4 < 64 := by omega
    have h2 : a % 4 * 16 < 64 := by omega
    rw [b64Encode, b64Decode, b64Val_b64Char _ h1, b64Val_b64Char _ h2]
    simp
    omega
  | case3 a b =>
    intro h
    have ha : a < 256 := h a (by simp)
    have hb : b < 256 := h b (by simp)
    have h1 : a / 4 < 64 := by omega
    have h2 : a % 4 * 16 + b / 16 < 64 := by omega
    have h3 : b % 16 * 4 < 64 := by omega
    rw [b64Encode, b64Decode]
    simp only [b64Val_b64Char _ h1, b64Val_b64Char _ h2, b64Val_b64Char _ h3,
      Option.bind_eq_bind, Option.some_bind, if_neg (b64Char_ne_pad _ h3)]
    simp
    omega
  | case4 a b c rest ih =>
    intro h
    have ha : a < 256 := h a (by simp)
    have hb : b < 256 := h b (by simp)
    have hc : c < 256 := h c (by simp)
    have h1 : a / 4 < 64 := by omega
    have h2 : a % 4 * 16 + b / 16 < 64 := by omega
    have h3 : b % 16 * 4 + c / 64 < 64 := by omega
    have h4 : c % 64 < 64 := by omega
    have htail := ih (fun x hx => h x (by simp [hx]))
    rw [b64Encode, b64Decode]
    simp only [b64Val_b64Char _ h1, b64Val_b64Char _ h2, b64Val_b64Char _ h3,
      b64Val_b64Char _ h4, htail, Option.bind_eq_bind, Option.some_bind,
      if_neg (b64Char_ne_pad _ h3), if_neg (b64Char_ne_pad _ h4)]
    simp
    omega

/-! ## IP addresses, socket addresses and CIDR prefixes

Shallow embedding of the std-library types the tunnel code formats with
`ToString`: `Ipv4Addr`, `Ipv6Addr` (eight 16-bit segments), `SocketAddr`
(v4: ip and port; v6: ip, port, flowinfo, scope id — the `flowinfo` field of
a Rust `SocketAddrV6` has no string representation: `Display` omits it and
`FromStr` restores it as 0), and the `ipnetwork` crate's `IpNetwork`
(address plus prefix length).
-/

structure Ipv4Addr where
  a : Nat
  b : Nat
  c : Nat
  d : Nat
deriving DecidableEq

structure Ipv6Addr where
  segs : List Nat
deriving DecidableEq

inductive SocketAddr where
  | v4 (ip : Ipv4Addr) (port : Nat)
  | v6 (ip : Ipv6Addr) (port : Nat) (flowinfo : Nat) (scopeId : Nat)
deriving DecidableEq

inductive IpNetwork where
  | v4 (addr : Ipv4Addr) (prefixLen : Nat)
  | v6 (addr : Ipv6Addr) (prefixLen : Nat)
deriving DecidableEq

def Ipv4Addr.Wf (x : Ipv4Addr) : Prop := x.a < 256 ∧ x.b < 256 ∧ x.c < 256 ∧ x.d < 256

instance (x : Ipv4Addr) : Decidable x.Wf := by unfold Ipv4Addr.Wf; infer_instance

def Ipv6Addr.Wf (x : Ipv6Addr) : Prop := x.segs.length = 8 ∧ ∀ g ∈ x.segs, g < 65536

instance (x : Ipv6Addr) : Decidable x.Wf := by unfold Ipv6Addr.Wf; infer_instance

def SocketAddr.Wf : SocketAddr → Prop
  | .v4 ip port => ip.Wf ∧ port < 65536
  | .v6 ip port flowinfo scopeId =>
      ip.Wf ∧ port < 65536 ∧ flowinfo < 4294967296 ∧ scopeId < 4294967296

instance : (sa : SocketAddr) → Decidable sa.Wf
  | .v4 _ _ => by unfold SocketAddr.Wf; infer_instance
  | .v6 _ _ _ _ => by unfold SocketAddr.Wf; infer_instance

/-- The v6 `flowinfo` field is zero (always true of a v4 address). -/
def SocketAddr.flowinfoZero : SocketAddr → Prop
  | .v4 _ _ => True
  | .v6 _ _ flowinfo _ => flowinfo = 0

instance : (sa : SocketAddr) → Decidable sa.flowinfoZero
  | .v4 _ _ => by unfold SocketAddr.flowinfoZero; infer_instance
  | .v6 _ _ _ _ => by unfold SocketAddr.flowinfoZero; infer_instance

/-- The socket address with its v6 `flowinfo` replaced by 0: what survives a
trip through the string form, which carries every field except `flowinfo`. -/
def SocketAddr.flowinfoCleared : SocketAddr → SocketAddr
  | .v4 ip port => .v4 ip port
  | .v6 ip port _ scopeId => .v6 ip port 0 scopeId

theorem SocketAddr.flowinfoCleared_eq_self (sa : SocketAddr) (h : sa.flowinfoZero) :
    sa.flowinfoCleared = sa := by
  cases sa with
  | v4 ip port => rfl
  | v6 ip port flowinfo scopeId =>
    have h0 : flowinfo = 0 := h
    rw [flowinfoCleared, h0]

def IpNetwork.Wf : IpNetwork → Prop
  | .v4 addr len => addr.Wf ∧ len ≤ 32
  | .v6 addr len => addr.Wf ∧ len ≤ 128

instance : (n : IpNetwork) → Decidable n.Wf
  | .v4 _ _ => by unfold IpNetwork.Wf; infer_instance
  | .v6 _ _ => by unfold IpNetwork.Wf; infer_instance

/-- `IpNetwork::is_ipv4` from the `ipnetwork` crate. -/
def IpNetwork.isIpv4 : IpNetwork → Bool
  | .v4 _ _ => true
  | .v6 _ _ => false

/-- `IpNetwork::is_ipv6` from the `ipnetwork` crate. -/
def IpNetwork.isIpv6 : IpNetwork → Bool
  | .v4 _ _ => false
  | .v6 _ _ => true

/-- Rust `Display` for `Ipv4Addr`: the four octets in decimal, separated by dots. -/
def Ipv4Addr.display (x : Ipv4Addr) : List Char :=
  natToDec x.a ++ '.' :: natToDec x.b ++ '.' :: natToDec x.c ++ '.' :: natToDec x.d

/-- The longest-run-of-zero-segments scan of Rust `Display` for `Ipv6Addr`:
fold over the segments keeping the current run and the longest run seen,
each as a (start, length) pair; a later run replaces the recorded one only
if strictly longer. -/
def zeroRunAux : List Nat → Nat → Nat × Nat → Nat × Nat → Nat × Nat
  | [], _, _, longest => longest
  | s :: rest, i, cur, longest =>
    if s = 0 then
      let cs := if cur.2 = 0 then i else cur.1
      let cl := cur.2 + 1
      let longest' := if longest.2 < cl then (cs, cl) else longest
      zeroRunAux rest (i + 1) (cs, cl) longest'
    else zeroRunAux rest (i + 1) (0, 0) longest

def zeroRun (segs : List Nat) : Nat × Nat := zeroRunAux segs 0 (0, 0) (0, 0)

/-- Hex segments joined by colons (the `fmt_subslice` helper of Rust's
`Ipv6Addr` `Display`). -/
def joinColon : List Nat → List Char
  | [] => []
  | [g] => natToHex g
  | g :: gs => natToHex g ++ ':' :: joinColon gs

/-- Rust `Display` for `Ipv6Addr`: the IPv4-mapped special case prints
`::ffff:a.b.c.d`; otherwise the longest zero run (when longer than one
segment) is compressed to `::`; otherwise all eight segments are printed. -/
def Ipv6Addr.display (x : Ipv6Addr) : List Char :=
  if x.segs.take 6 = [0, 0, 0, 0, 0, 65535] then
    [':', ':', 'f', 'f', 'f', 'f', ':'] ++
      Ipv4Addr.display ⟨x.segs.getD 6 0 / 256, x.segs.getD 6 0 % 256,
        x.segs.getD 7 0 / 256, x.segs.getD 7 0 % 256⟩
  else if 1 < (zeroRun x.segs).2 then
    joinColon (x.segs.take (zeroRun x.segs).1)
      ++ ':' :: ':' :: joinColon (x.segs.drop ((zeroRun x.segs).1 + (zeroRun x.segs).2))
  else joinColon x.segs

/-- Rust `Display` for `SocketAddr`: `ip:port` for v4, `[ip]:port` for v6,
with `%scope` inside the brackets when the scope id is nonzero; the v6
`flowinfo` field is never printed. -/
def SocketAddr.display : SocketAddr → List Char
  | .v4 ip port => ip.display ++ ':' :: natToDec port
  | .v6 ip port _flowinfo scopeId =>
      if scopeId = 0 then '[' :: (ip.display ++ ']' :: ':' :: natToDec port)
      else '[' :: (ip.display ++ '%' :: natToDec scopeId ++ ']' :: ':' :: natToDec port)

/-- `Display` for the `ipnetwork` crate's network types: `addr/prefix`. -/
def IpNetwork.display : IpNetwork → List Char
  | .v4 addr len => addr.display ++ '/' :: natToDec len
  | .v6 addr len => addr.display ++ '/' :: natToDec len

/-- `ToString` output of a socket address (`peer.endpoint.to_string()`). -/
def SocketAddr.toDisplayString (sa : SocketAddr) : String := ⟨sa.display⟩

/-- `ToString` output of an allowed-IP prefix (`ToString::to_string` on `IpNetwork`). -/
def IpNetwork.toDisplayString (n : IpNetwork) : String := ⟨n.display⟩

/-- `PublicKey::to_base64` / `PrivateKey::to_base64` on a 32-byte key. -/
def keyToBase64 (k : List Nat) : String := ⟨b64Encode k⟩

theorem zeroRunAux_spec (segs : List Nat) :
    ∀ (rest : List Nat) (i : Nat) (cur longest : Nat × Nat),
      rest = segs.drop i →
      (cur.2 = 0 ∨ cur.1 + cur.2 = i) →
      (∀ j < cur.2, segs[cur.1 + j]? = some 0) →
      (∀ j < longest.2, segs[longest.1 + j]? = some 0) →
      ∀ j < (zeroRunAux rest i cur longest).2,
        segs[(zeroRunAux rest i cur longest).1 + j]? = some 0 := by
  intro rest
  induction rest with
  | nil =>
    intro i cur longest _ _ _ hlong
    simpa [zeroRunAux] using hlong
  | cons s rest' ih =>
    intro i cur longest hdrop hcur hcurz hlong
    have hseg : segs[i]? = some s := by
      have h0 : (segs.drop i)[0]? = segs[i + 0]? := List.getElem?_drop segs i 0
      rw [← hdrop] at h0
      simpa using h0.symm
    have hdrop' : rest' = segs.drop (i + 1) := by
      have h1 : List.drop 1 (List.drop i segs) = List.drop (i + 1) segs := by
        rw [List.drop_drop]
      rw [← h1, ← hdrop]
      rfl
    rw [zeroRunAux]
    split
    · rename_i hs
      subst hs
      set cs := if cur.2 = 0 then i else cur.1 with hcs
      have hcurz' : ∀ j < cur.2 + 1, segs[cs + j]? = some 0 := by
        intro j hj
        rcases Nat.lt_or_ge j cur.2 with hlt | hge
        · have hold := hcurz j hlt
          rw [hcs]
          split
          · omega
          · exact hold
        · have hj2 : j = cur.2 := by omega
          subst hj2
          rw [hcs]
          split
          · rename_i hz
            rw [hz]
            simpa using hseg
          · rename_i hz
            rcases hcur with h0 | h0
            · exact absurd h0 hz
            · rw [h0]
              exact hseg
      have hcs' : cs + cur.2 + 1 = i + 1 := by
        rw [hcs]
        split
        · rename_i hz
          omega
        · rename_i hz
          rcases hcur with h0 | h0
          · exact absurd h0 hz
          · omega
      refine ih (i + 1) (cs, cur.2 + 1) _ hdrop' (Or.inr (by omega)) hcurz' ?_
      split
      · exact hcurz'
      · exact hlong
    · exact ih (i + 1) (0, 0) longest hdrop' (Or.inl rfl) (by omega) hlong

theorem zeroRun_spec (segs : List Nat) :
    ∀ j < (zeroRun segs).2, segs[(zeroRun segs).1 + j]? = some 0 := by
  exact zeroRunAux_spec segs segs 0 (0, 0) (0, 0) (by simp) (Or.inl rfl)
    (by omega) (by omega)

theorem zeroRun_le_length (segs : List Nat) (h : 0 < (zeroRun segs).2) :
    (zeroRun segs).1 + (zeroRun segs).2 ≤ segs.length := by
  have hj := zeroRun_spec segs ((zeroRun segs).2 - 1) (by omega)
  obtain ⟨hlt, -⟩ := List.getElem?_eq_some.1 hj
  omega

theorem segs_decompose (segs : List Nat) (s l : Nat)
    (hrun : ∀ j < l, segs[s + j]? = some 0) (_hle : s + l ≤ segs.length) :
    segs = segs.take s ++ (List.replicate l 0 ++ segs.drop (s + l)) := by
  have hmid : (segs.drop s).take l = List.replicate l 0 := by
    apply List.ext_getElem?
    intro n
    rw [List.getElem?_take, List.getElem?_replicate]
    split
    · rename_i hn
      rw [List.getElem?_drop]
      exact hrun n hn
    · rfl
  have hsplit2 : segs.drop s = (segs.drop s).take l ++ (segs.drop s).drop l :=
    (List.take_append_drop l (segs.drop s)).symm
  rw [List.drop_drop] at hsplit2
  rw [← hmid]
  have : s + l = l + s := by omega
  rw [this] at hsplit2 ⊢
  rw [← hsplit2]
  exact (List.take_append_drop s segs).symm

/-! ## Parsers: Rust std `FromStr` via `core::net::parser::Parser`, and the
`ipnetwork` crate's `FromStr` -/

/-- `read_number(10, Some(3), false)` into a `u8`: one IPv4 octet. -/
def readOctet (cs : List Char) : Option (Nat × List Char) :=
  readNumber isDecDigit decDigitVal 10 256 (some 3) false cs

/-- `Parser::read_ipv4_addr`: four octets separated by dots. -/
def readIpv4 (cs : List Char) : Option (Ipv4Addr × List Char) := do
  let (a, cs) ← readOctet cs
  let cs ← expectChar '.' cs
  let (b, cs) ← readOctet cs
  let cs ← expectChar '.' cs
  let (c, cs) ← readOctet cs
  let cs ← expectChar '.' cs
  let (d, cs) ← readOctet cs
  pure (⟨a, b, c, d⟩, cs)

/-- `Parser::read_separator(':', i, inner)`: for group index `i > 0` first consume
a colon, then run the inner parser; on failure nothing is consumed. -/
def readSep {α : Type} (i : Nat) (inner : List Char → Option (α × List Char))
    (cs : List Char) : Option (α × List Char) :=
  if i = 0 then inner cs
  else match expectChar ':' cs with
    | some rest => inner rest
    | none => none

/-- `read_number(16, Some(4), true)` into a `u16`: one IPv6 group. -/
def readHexGroup (cs : List Char) : Option (Nat × List Char) :=
  readNumber isHexDigit hexDigitVal 16 65536 (some 4) true cs

/-- The `read_groups` helper of `Parser::read_ipv6_addr`: starting at group
index `i`, repeatedly read a separator and a group until `limit` groups were
read or a parse fails; at each index with at least two slots left, first try
a trailing embedded IPv4 address, which fills two groups and stops the scan.
Returns the groups read, whether an embedded IPv4 address was read, and the
remaining input. -/
def readGroups (limit i : Nat) (cs : List Char) : List Nat × Bool × List Char :=
  if _h : i < limit then
    match (if i + 1 < limit then readSep i readIpv4 cs else none) with
    | some (ip, rest) => ([ip.a * 256 + ip.b, ip.c * 256 + ip.d], true, rest)
    | none =>
      match readSep i readHexGroup cs with
      | some (g, rest) =>
        let r := readGroups limit (i + 1) rest
        (g :: r.1, r.2.1, r.2.2)
      | none => ([], false, cs)
  else ([], false, cs)
termination_by limit - i

/-- `Parser::read_ipv6_addr`: read head groups up to the first `::` (or all
eight); an embedded IPv4 part is not allowed before `::`; then read tail
groups and zero-fill the gap. -/
def readIpv6 (cs : List Char) : Option (Ipv6Addr × List Char) :=
  let r := readGroups 8 0 cs
  let head := r.1
  if head.length = 8 then some (⟨head⟩, r.2.2)
  else if r.2.1 then none
  else do
    let rest ← expectChar ':' r.2.2
    let rest2 ← expectChar ':' rest
    let limit := 8 - (head.length + 1)
    let t := readGroups limit 0 rest2
    pure (⟨head ++ (List.replicate (8 - head.length - t.1.length) 0 ++ t.1)⟩, t.2.2)

/-- `Parser::read_scope_id`: a `%` followed by a decimal `u32`; atomically, so
if absent or malformed nothing is consumed and the scope id defaults to 0. -/
def readScope (cs : List Char) : Nat × List Char :=
  match expectChar '%' cs with
  | some cs' =>
    match readNumber isDecDigit decDigitVal 10 4294967296 none true cs' with
    | some (n, cs'') => (n, cs'')
    | none => (0, cs)
  | none => (0, cs)

/-- `Parser::read_port`: a colon followed by a decimal `u16`. -/
def readPort (cs : List Char) : Option (Nat × List Char) := do
  let cs ← expectChar ':' cs
  readNumber isDecDigit decDigitVal 10 65536 none true cs

/-- `Parser::read_socket_addr_v4`. -/
def readSocketAddrV4 (cs : List Char) : Option (SocketAddr × List Char) := do
  let (ip, cs) ← readIpv4 cs
  let (port, cs) ← readPort cs
  pure (SocketAddr.v4 ip port, cs)

/-- `Parser::read_socket_addr_v6`; the parsed address is built with
`SocketAddrV6::new(ip, port, 0, scope_id)`, so `flowinfo` is always 0. -/
def readSocketAddrV6 (cs : List Char) : Option (SocketAddr × List Char) := do
  let cs ← expectChar '[' cs
  let (ip, cs) ← readIpv6 cs
  let sc := readScope cs
  let cs ← expectChar ']' sc.2
  let (port, cs) ← readPort cs
  pure (SocketAddr.v6 ip port 0 sc.1, cs)

/-- `FromStr` for `SocketAddr`: try v4 then v6, and require the whole string
to be consumed. -/
def parseSocketAddr (cs : List Char) : Option SocketAddr :=
  match (match readSocketAddrV4 cs with
         | some r => some r
         | none => readSocketAddrV6 cs) with
  | some (sa, []) => some sa
  | _ => none

/-- Split at the first slash (the `cidr_parts` helper of the `ipnetwork` crate). -/
def splitSlash (cs : List Char) : List Char × Option (List Char) :=
  let front := cs.takeWhile (fun c => c != '/')
  match expectChar '/' (cs.dropWhile (fun c => c != '/')) with
  | some rest => (front, some rest)
  | none => (front, none)

/-- `FromStr` for `Ipv4Addr` (whole string). -/
def parseIpv4Full (cs : List Char) : Option Ipv4Addr :=
  match readIpv4 cs with
  | some (ip, []) => some ip
  | _ => none

/-- `FromStr` for `Ipv6Addr` (whole string). -/
def parseIpv6Full (cs : List Char) : Option Ipv6Addr :=
  match readIpv6 cs with
  | some (ip, []) => some ip
  | _ => none

/-- Decimal prefix length at most `maxLen` (`parse_prefix` in the `ipnetwork`
crate, which parses a `u8` and checks it against the family's maximum). -/
def parsePrefixLen (cs : List Char) (maxLen : Nat) : Option Nat :=
  match readNumber isDecDigit decDigitVal 10 256 none true cs with
  | some (n, []) => if n ≤ maxLen then some n else none
  | _ => none

/-- `FromStr` for `Ipv4Network`: an address, then an optional `/prefix`
(defaulting to the full prefix length). -/
def parseIpv4Network (cs : List Char) : Option IpNetwork := do
  let parts := splitSlash cs
  let ip ← parseIpv4Full parts.1
  match parts.2 with
  | none => pure (IpNetwork.v4 ip 32)
  | some ps => do
      let len ← parsePrefixLen ps 32
      pure (IpNetwork.v4 ip len)

/-- `FromStr` for `Ipv6Network`. -/
def parseIpv6Network (cs : List Char) : Option IpNetwork := do
  let parts := splitSlash cs
  let ip ← parseIpv6Full parts.1
  match parts.2 with
  | none => pure (IpNetwork.v6 ip 128)
  | some ps => do
      let len ← parsePrefixLen ps 128
      pure (IpNetwork.v6 ip len)

/-- `FromStr` for `IpNetwork`: try v4, then v6. -/
def parseIpNetwork (cs : List Char) : Option IpNetwork :=
  match parseIpv4Network cs with
  | some n => some n
  | none => parseIpv6Network cs

/-! ## Round trips of the display functions through the parsers -/

theorem headNot_cons {p : Char → Bool} (x : Char) (t : List Char) (hx : p x = false) :
    ∀ c, (x :: t).head? = some c → p c = false := by
  intro c h
  rw [List.head?_cons, Option.some.injEq] at h
  subst h
  exact hx

theorem octet_len_le (n : Nat) (hn : n < 256) :
    ∀ m, (some 3 : Option Nat) = some m → (natToDec n).length ≤ m := by
  intro m hm
  injection hm with hm
  subst hm
  exact natToDec_length_le n 3 (by omega) (by omega)

theorem hexGroup_len_le (n : Nat) (hn : n < 65536) :
    ∀ m, (some 4 : Option Nat) = some m → (natToHex n).length ≤ m := by
  intro m hm
  injection hm with hm
  subst hm
  exact natToHex_length_le n 4 (by omega) (by omega)

theorem noMax_len_le (n : Nat) :
    ∀ m, (none : Option Nat) = some m → (natToDec n).length ≤ m := by
  intro m hm
  exact absurd hm (by simp)

theorem readIpv4_display (x : Ipv4Addr) (hwf : x.Wf) (rest : List Char)
    (hrest : ∀ c, rest.head? = some c → isDecDigit c = false) :
    readIpv4 (x.display ++ rest) = some (x, rest) := by
  obtain ⟨a, b, c, d⟩ := x
  obtain ⟨ha, hb, hc, hd⟩ := hwf
  simp only [Ipv4Addr.display, List.append_assoc, List.cons_append] at *
  simp only [readIpv4, readOctet, Option.bind_eq_bind]
  rw [readNumber_dec a 256 (some 3) false _ ha (octet_len_le a ha)
    (headNot_cons '.' _ (by decide)), Option.some_bind, expectChar_cons, Option.some_bind]
  rw [readNumber_dec b 256 (some 3) false _ hb (octet_len_le b hb)
    (headNot_cons '.' _ (by decide)), Option.some_bind, expectChar_cons, Option.some_bind]
  rw [readNumber_dec c 256 (some 3) false _ hc (octet_len_le c hc)
    (headNot_cons '.' _ (by decide)), Option.some_bind, expectChar_cons, Option.some_bind]
  rw [readNumber_dec d 256 (some 3) false _ hd (octet_len_le d hd) hrest, Option.some_bind]
  rfl

theorem readIpv4_none (cs : List Char)
    (h : ∀ c, cs.head? = some c → isDecDigit c = false) : readIpv4 cs = none := by
  simp only [readIpv4, readOctet, Option.bind_eq_bind]
  rw [readNumber_none _ _ _ _ _ _ _ h]
  rfl

theorem readNumber_rest (isDig : Char → Bool) (digVal : Char → Nat) (radix bound : Nat)
    (maxDigits : Option Nat) (zeroPadOk : Bool) (cs : List Char) (v : Nat) (r : List Char)
    (h : readNumber isDig digVal radix bound maxDigits zeroPadOk cs = some (v, r)) :
    r = cs.dropWhile isDig := by
  simp only [readNumber] at h
  split at h
  · exact absurd h (by simp)
  · split at h
    · exact absurd h (by simp)
    · split at h
      · exact absurd h (by simp)
      · split at h
        · simp only [Option.some.injEq, Prod.mk.injEq] at h
          exact h.2.symm
        · exact absurd h (by simp)

/-- Input positions where the group scan of `read_groups` must stop: either the
end of input, a colon followed by a non-hex-digit (e.g. the second colon of
`::`), or a character that can neither start a hex group nor continue towards
an embedded IPv4 address. -/
def GroupStop (cs : List Char) : Prop :=
  ∀ c, cs.head? = some c →
    if c = ':' then ∀ c', cs.tail.head? = some c' → isHexDigit c' = false
    else isHexDigit c = false ∧ c ≠ '.'

/-- Input positions where an embedded-IPv4 attempt fails right after a hex
group: end of input, a colon, or a character that is neither a hex digit nor
a dot. -/
def V4Boundary (cs : List Char) : Prop :=
  ∀ c, cs.head? = some c → c = ':' ∨ (isHexDigit c = false ∧ c ≠ '.')

theorem GroupStop.head_not_hex {cs : List Char} (h : GroupStop cs) :
    ∀ c, cs.head? = some c → isHexDigit c = false := by
  intro c hc
  have hx := h c hc
  split at hx
  · rename_i he
    subst he
    decide
  · exact hx.1

theorem GroupStop.head_not_dec {cs : List Char} (h : GroupStop cs) :
    ∀ c, cs.head? = some c → isDecDigit c = false :=
  fun c hc => isDecDigit_false_of_isHexDigit_false c (h.head_not_hex c hc)

theorem GroupStop.v4Boundary {cs : List Char} (h : GroupStop cs) : V4Boundary cs := by
  intro c hc
  have hx := h c hc
  split at hx
  · rename_i he
    exact Or.inl he
  · exact Or.inr hx

theorem groupStop_nil : GroupStop [] := by
  intro c hc
  simp at hc

theorem groupStop_cons_of_not_hex (c : Char) (t : List Char)
    (h1 : isHexDigit c = false) (h2 : c ≠ '.') (h3 : c ≠ ':') : GroupStop (c :: t) := by
  intro c' hc'
  rw [List.head?_cons, Option.some.injEq] at hc'
  subst hc'
  rw [if_neg h3]
  exact ⟨h1, h2⟩

theorem v4Boundary_cons_colon (t : List Char) : V4Boundary (':' :: t) := by
  intro c hc
  rw [List.head?_cons, Option.some.injEq] at hc
  subst hc
  exact Or.inl rfl

theorem dropWhile_dec_not_dot (l : List Char) (hl : ∀ c ∈ l, isHexDigit c = true)
    (r : List Char) (hr : V4Boundary r) :
    ∀ c, ((l ++ r).dropWhile isDecDigit).head? = some c → c ≠ '.' := by
  induction l with
  | nil =>
    intro c h
    simp only [List.nil_append] at h
    cases r with
    | nil => simp at h
    | cons x r' =>
      by_cases hx : isDecDigit x = true
      · rcases hr x rfl with h1 | h1
        · subst h1
          exact absurd hx (by decide)
        · exact absurd (isHexDigit_of_isDecDigit x hx) (by simp [h1.1])
      · rw [List.dropWhile_cons, if_neg (by simpa using hx)] at h
        rw [List.head?_cons, Option.some.injEq] at h
        subst h
        rcases hr x rfl with h1 | h1
        · subst h1
          decide
        · exact h1.2
  | cons x l' ih =>
    intro c h
    have hx : isHexDigit x = true := hl x (by simp)
    by_cases hd : isDecDigit x = true
    · rw [List.cons_append, List.dropWhile_cons, if_pos (by simpa using hd)] at h
      exact ih (fun c hc => hl c (by simp [hc])) c h
    · rw [List.cons_append, List.dropWhile_cons, if_neg (by simpa using hd)] at h
      rw [List.head?_cons, Option.some.injEq] at h
      subst h
      exact isHexDigit_ne_dot _ hx

/-- An embedded-IPv4 attempt starting at a hex group followed by a well-placed
boundary always fails: the dot test after the first octet hits a non-dot. -/
theorem readIpv4_fail_hex (g : Nat) (rest : List Char) (hb : V4Boundary rest) :
    readIpv4 (natToHex g ++ rest) = none := by
  simp only [readIpv4, readOctet, Option.bind_eq_bind]
  cases hoct : readNumber isDecDigit decDigitVal 10 256 (some 3) false (natToHex g ++ rest) with
  | none => rfl
  | some vr =>
    obtain ⟨v, r⟩ := vr
    have hr := readNumber_rest _ _ _ _ _ _ _ _ _ hoct
    rw [Option.some_bind]
    subst hr
    rcases hdw : (natToHex g ++ rest).dropWhile isDecDigit with _ | ⟨c, t⟩
    · rfl
    · have hc : c ≠ '.' := dropWhile_dec_not_dot _ (natToHex_all_hex g) _ hb c (by rw [hdw]; rfl)
      show (expectChar '.' (c :: t)).bind _ = none
      simp only [expectChar, if_neg hc]
      rfl

theorem GroupStop.tail_not_hex {cs cs' : List Char} (h : GroupStop cs) (he : cs = ':' :: cs') :
    ∀ c, cs'.head? = some c → isHexDigit c = false := by
  subst he
  have hx := h ':' rfl
  rw [if_pos rfl] at hx
  exact hx

theorem readSep_none {α : Type} (i : Nat) (inner : List Char → Option (α × List Char))
    (cs : List Char) (h0 : i = 0 → inner cs = none)
    (hc : ∀ cs', cs = ':' :: cs' → inner cs' = none) :
    readSep i inner cs = none := by
  rw [readSep]
  split
  · exact h0 ‹_›
  · cases cs with
    | nil => rfl
    | cons c cs' =>
      simp only [expectChar]
      by_cases hcolon : c = ':'
      · subst hcolon
        rw [if_pos rfl]
        exact hc cs' rfl
      · rw [if_neg hcolon]

theorem readSep_pre {α : Type} (i : Nat) (inner : List Char → Option (α × List Char))
    (X : List Char) :
    readSep i inner ((if i = 0 then ([] : List Char) else [':']) ++ X) = inner X := by
  rw [readSep]
  split
  · rfl
  · simp [expectChar]

theorem readGroups_stop (limit i : Nat) (cs : List Char)
    (h : limit ≤ i ∨ GroupStop cs) : readGroups limit i cs = ([], false, cs) := by
  rw [readGroups]
  rcases h with h | h
  · rw [dif_neg (by omega)]
  · by_cases hi : i < limit
    · rw [dif_pos hi]
      have hv4 : (if i + 1 < limit then readSep i readIpv4 cs else none) = none := by
        split
        · exact readSep_none i readIpv4 cs
            (fun _ => readIpv4_none cs h.head_not_dec)
            (fun cs' he => readIpv4_none cs' (fun c hc =>
              isDecDigit_false_of_isHexDigit_false c (h.tail_not_hex he c hc)))
        · rfl
      have hhex : readSep i readHexGroup cs = none :=
        readSep_none i readHexGroup cs
          (fun _ => readNumber_none _ _ _ _ _ _ _ h.head_not_hex)
          (fun cs' he => readNumber_none _ _ _ _ _ _ _ (h.tail_not_hex he))
      rw [hv4, hhex]
    · rw [dif_neg hi]

theorem readGroups_join (gs : List Nat) : ∀ (g : Nat) (i limit : Nat) (rest : List Char),
    (∀ x ∈ g :: gs, x < 65536) → i + (g :: gs).length ≤ limit → GroupStop rest →
    readGroups limit i
        ((if i = 0 then ([] : List Char) else [':']) ++ (joinColon (g :: gs) ++ rest))
      = (g :: gs, false, rest) := by
  induction gs with
  | nil =>
    intro g i limit rest hwf hlen hstop
    have hg : g < 65536 := hwf g (by simp)
    rw [readGroups, dif_pos (by simp at hlen; omega)]
    have hv4 : (if i + 1 < limit then
        readSep i readIpv4 ((if i = 0 then ([] : List Char) else [':'])
          ++ (joinColon [g] ++ rest)) else none) = none := by
      split
      · rw [readSep_pre]
        show readIpv4 (natToHex g ++ rest) = none
        exact readIpv4_fail_hex g rest hstop.v4Boundary
      · rfl
    have hhex : readSep i readHexGroup ((if i = 0 then ([] : List Char) else [':'])
        ++ (joinColon [g] ++ rest)) = some (g, rest) := by
      rw [readSep_pre]
      show readHexGroup (natToHex g ++ rest) = some (g, rest)
      exact readNumber_hex g 65536 (some 4) rest hg (hexGroup_len_le g hg) hstop.head_not_hex
    rw [hv4, hhex]
    show (g :: (readGroups limit (i + 1) rest).1, (readGroups limit (i + 1) rest).2.1,
      (readGroups limit (i + 1) rest).2.2) = ([g], false, rest)
    rw [readGroups_stop limit (i + 1) rest (Or.inr hstop)]
  | cons g' gs'' ih =>
    intro g i limit rest hwf hlen hstop
    have hg : g < 65536 := hwf g (by simp)
    have hjoin : joinColon (g :: g' :: gs'') ++ rest
        = natToHex g ++ (':' :: (joinColon (g' :: gs'') ++ rest)) := by
      show (natToHex g ++ ':' :: joinColon (g' :: gs'')) ++ rest = _
      simp [List.append_assoc]
    simp only [List.length_cons] at hlen
    rw [readGroups, dif_pos (by omega)]
    have hv4 : (if i + 1 < limit then
        readSep i readIpv4 ((if i = 0 then ([] : List Char) else [':'])
          ++ (joinColon (g :: g' :: gs'') ++ rest)) else none) = none := by
      rw [if_pos (by omega), readSep_pre, hjoin]
      exact readIpv4_fail_hex g _ (v4Boundary_cons_colon _)
    have hhex : readSep i readHexGroup ((if i = 0 then ([] : List Char) else [':'])
        ++ (joinColon (g :: g' :: gs'') ++ rest))
        = some (g, ':' :: (joinColon (g' :: gs'') ++ rest)) := by
      rw [readSep_pre, hjoin]
      exact readNumber_hex g 65536 (some 4) _ hg (hexGroup_len_le g hg)
        (headNot_cons ':' _ (by decide))
    have hrec := ih g' (i + 1) limit rest (fun x hx => hwf x (by simp at hx ⊢; tauto))
      (by simp; omega) hstop
    rw [if_neg (by omega)] at hrec
    rw [hv4, hhex]
    show (g :: (readGroups limit (i + 1) (':' :: (joinColon (g' :: gs'') ++ rest))).1,
      (readGroups limit (i + 1) (':' :: (joinColon (g' :: gs'') ++ rest))).2.1,
      (readGroups limit (i + 1) (':' :: (joinColon (g' :: gs'') ++ rest))).2.2)
      = (g :: g' :: gs'', false, rest)
    rw [show (':' :: (joinColon (g' :: gs'') ++ rest))
        = [':'] ++ (joinColon (g' :: gs'') ++ rest) from rfl, hrec]

theorem groupStop_colon_colon (t : List Char) : GroupStop (':' :: ':' :: t) := by
  intro c hc
  rw [List.head?_cons, Option.some.injEq] at hc
  subst hc
  rw [if_pos rfl]
  intro c' hc'
  rw [List.tail_cons, List.head?_cons, Option.some.injEq] at hc'
  subst hc'
  decide

theorem readIpv6_mapped (s6 s7 : Nat) (h6 : s6 < 65536) (h7 : s7 < 65536)
    (rest : List Char) (hstop : GroupStop rest) :
    readIpv6 ([':', ':', 'f', 'f', 'f', 'f', ':']
        ++ (Ipv4Addr.display ⟨s6 / 256, s6 % 256, s7 / 256, s7 % 256⟩ ++ rest))
      = some (⟨[0, 0, 0, 0, 0, 65535, s6, s7]⟩, rest) := by
  have hffff : natToHex 65535 = ['f', 'f', 'f', 'f'] := by simp [natToHex, hexDigitChar]
  set v4disp := Ipv4Addr.display ⟨s6 / 256, s6 % 256, s7 / 256, s7 % 256⟩ with hv4disp
  have h3 : readGroups 7 1 (':' :: (v4disp ++ rest)) = ([s6, s7], true, rest) := by
    rw [readGroups, dif_pos (by norm_num), if_pos (by norm_num)]
    have hip : readSep 1 readIpv4 (':' :: (v4disp ++ rest))
        = some (⟨s6 / 256, s6 % 256, s7 / 256, s7 % 256⟩, rest) := by
      rw [readSep, if_neg (by norm_num)]
      rw [expectChar_cons]
      refine readIpv4_display _ ?_ rest hstop.head_not_dec
      refine ⟨?_, ?_, ?_, ?_⟩ <;> simp <;> omega
    rw [hip]
    show ([s6 / 256 * 256 + s6 % 256, s7 / 256 * 256 + s7 % 256], true, rest)
      = ([s6, s7], true, rest)
    have e6 : s6 / 256 * 256 + s6 % 256 = s6 := by omega
    have e7 : s7 / 256 * 256 + s7 % 256 = s7 := by omega
    rw [e6, e7]
  have h2 : readGroups 7 0 ('f' :: 'f' :: 'f' :: 'f' :: ':' :: (v4disp ++ rest))
      = ([65535, s6, s7], true, rest) := by
    rw [readGroups, dif_pos (by norm_num), if_pos (by norm_num)]
    have hv4none : readSep 0 readIpv4 ('f' :: 'f' :: 'f' :: 'f' :: ':' :: (v4disp ++ rest))
        = none := by
      rw [readSep, if_pos rfl]
      exact readIpv4_none _ (headNot_cons 'f' _ (by decide))
    have hhex : readSep 0 readHexGroup ('f' :: 'f' :: 'f' :: 'f' :: ':' :: (v4disp ++ rest))
        = some (65535, ':' :: (v4disp ++ rest)) := by
      rw [readSep, if_pos rfl]
      have hinp : ('f' :: 'f' :: 'f' :: 'f' :: ':' :: (v4disp ++ rest))
          = natToHex 65535 ++ (':' :: (v4disp ++ rest)) := by
        rw [hffff]
        rfl
      rw [hinp]
      exact readNumber_hex 65535 65536 (some 4) _ (by norm_num)
        (hexGroup_len_le 65535 (by norm_num)) (headNot_cons ':' _ (by decide))
    rw [hv4none, hhex]
    show (65535 :: (readGroups 7 1 (':' :: (v4disp ++ rest))).1,
      (readGroups 7 1 (':' :: (v4disp ++ rest))).2.1,
      (readGroups 7 1 (':' :: (v4disp ++ rest))).2.2) = ([65535, s6, s7], true, rest)
    rw [h3]
  have h1 : readGroups 8 0 (':' :: ':' :: 'f' :: 'f' :: 'f' :: 'f' :: ':' :: (v4disp ++ rest))
      = ([], false, ':' :: ':' :: 'f' :: 'f' :: 'f' :: 'f' :: ':' :: (v4disp ++ rest)) :=
    readGroups_stop 8 0 _ (Or.inr (groupStop_colon_colon _))
  show readIpv6 (':' :: ':' :: 'f' :: 'f' :: 'f' :: 'f' :: ':' :: (v4disp ++ rest)) = _
  rw [readIpv6]
  rw [h1]
  simp only [List.length_nil, expectChar_cons, Option.some_bind, Option.bind_eq_bind]
  norm_num
  rw [h2]
  simp [List.replicate]

theorem list_len8 {α : Type} (l : List α) (h : l.length = 8) :
    ∃ a b c d e f g h', l = [a, b, c, d, e, f, g, h'] := by
  rcases l with _ | ⟨a, l⟩; · simp at h
  rcases l with _ | ⟨b, l⟩; · simp at h
  rcases l with _ | ⟨c, l⟩; · simp at h
  rcases l with _ | ⟨d, l⟩; · simp at h
  rcases l with _ | ⟨e, l⟩; · simp at h
  rcases l with _ | ⟨f, l⟩; · simp at h
  rcases l with _ | ⟨g, l⟩; · simp at h
  rcases l with _ | ⟨h', l⟩; · simp at h
  have hl0 : l.length = 0 := by
    simp only [List.length_cons] at h
    omega
  have : l = [] := List.length_eq_zero.1 hl0
  subst this
  exact ⟨a, b, c, d, e, f, g, h', rfl⟩

theorem readIpv6_display (x : Ipv6Addr) (hwf : x.Wf) (rest : List Char)
    (hstop : GroupStop rest) :
    readIpv6 (x.display ++ rest) = some (x, rest) := by
  obtain ⟨segs⟩ := x
  obtain ⟨hlen, hbound⟩ := hwf
  dsimp only at hlen hbound
  show readIpv6 (Ipv6Addr.display ⟨segs⟩ ++ rest) = some (⟨segs⟩, rest)
  rw [show Ipv6Addr.display ⟨segs⟩ = (if segs.take 6 = [0, 0, 0, 0, 0, 65535] then
      [':', ':', 'f', 'f', 'f', 'f', ':'] ++
        Ipv4Addr.display ⟨segs.getD 6 0 / 256, segs.getD 6 0 % 256,
          segs.getD 7 0 / 256, segs.getD 7 0 % 256⟩
    else if 1 < (zeroRun segs).2 then
      joinColon (segs.take (zeroRun segs).1)
        ++ ':' :: ':' :: joinColon (segs.drop ((zeroRun segs).1 + (zeroRun segs).2))
    else joinColon segs) from rfl]
  split
  · -- the IPv4-mapped special case `::ffff:a.b.c.d`
    rename_i hmap
    obtain ⟨s0, s1, s2, s3, s4, s5, s6, s7, hsegs⟩ := list_len8 segs hlen
    subst hsegs
    simp only [List.take] at hmap
    obtain ⟨e0, e1, e2, e3, e4, e5⟩ : s0 = 0 ∧ s1 = 0 ∧ s2 = 0 ∧ s3 = 0 ∧ s4 = 0 ∧ s5 = 65535 := by
      simpa using hmap
    subst e0; subst e1; subst e2; subst e3; subst e4; subst e5
    have h6 : s6 < 65536 := hbound s6 (by simp)
    have h7 : s7 < 65536 := hbound s7 (by simp)
    rw [List.append_assoc]
    exact readIpv6_mapped s6 s7 h6 h7 rest hstop
  · rename_i hnotmap
    split
    · -- a zero run longer than one segment is compressed to `::`
      rename_i hrun
      have hsl : (zeroRun segs).1 + (zeroRun segs).2 ≤ 8 := by
        have := zeroRun_le_length segs (by omega)
        omega
      set s := (zeroRun segs).1 with hs
      set l := (zeroRun segs).2 with hl
      have hh : readGroups 8 0 (joinColon (segs.take s)
          ++ (':' :: ':' :: (joinColon (segs.drop (s + l)) ++ rest)))
          = (segs.take s, false, ':' :: ':' :: (joinColon (segs.drop (s + l)) ++ rest)) := by
        rcases htake : segs.take s with _ | ⟨h0, hs'⟩
        · show readGroups 8 0 (joinColon [] ++ _) = _
          show readGroups 8 0 (':' :: ':' :: (joinColon (segs.drop (s + l)) ++ rest)) = _
          exact readGroups_stop 8 0 _ (Or.inr (groupStop_colon_colon _))
        · have hwf' : ∀ y ∈ h0 :: hs', y < 65536 := by
            intro y hy
            exact hbound y (List.take_subset s segs (htake ▸ hy))
          have hlen' : 0 + (h0 :: hs').length ≤ 8 := by
            have : (segs.take s).length ≤ segs.length := by
              rw [List.length_take]
              omega
            rw [htake] at this
            omega
          have := readGroups_join hs' h0 0 8
            (':' :: ':' :: (joinColon (segs.drop (s + l)) ++ rest)) hwf' hlen'
            (groupStop_colon_colon _)
          rw [if_pos rfl, List.nil_append] at this
          exact this
      have hts : (segs.take s).length = s := by
        rw [List.length_take]
        omega
      have ht : readGroups (8 - (s + 1)) 0 (joinColon (segs.drop (s + l)) ++ rest)
          = (segs.drop (s + l), false, rest) := by
        rcases hdrop : segs.drop (s + l) with _ | ⟨d, ds⟩
        · show readGroups (8 - (s + 1)) 0 rest = _
          exact readGroups_stop _ 0 rest (Or.inr hstop)
        · have hwf'' : ∀ y ∈ d :: ds, y < 65536 := by
            intro y hy
            exact hbound y (List.drop_subset (s + l) segs (hdrop ▸ hy))
          have hlen'' : 0 + (d :: ds).length ≤ 8 - (s + 1) := by
            have : (segs.drop (s + l)).length = 8 - (s + l) := by
              rw [List.length_drop, hlen]
            rw [hdrop] at this
            simp only [List.length_cons] at this ⊢
            omega
          have := readGroups_join ds d 0 (8 - (s + 1)) rest hwf'' hlen'' hstop
          rw [if_pos rfl, List.nil_append] at this
          exact this
      simp only [readIpv6, List.append_assoc, List.cons_append]
      rw [hh]
      simp only [hts]
      rw [if_neg (by omega)]
      simp only [Bool.false_eq_true, if_false, expectChar_cons, Option.some_bind,
        Option.bind_eq_bind]
      rw [ht]
      have hcount : 8 - s - (segs.drop (s + l)).length = l := by
        rw [List.length_drop, hlen]
        omega
      simp only [List.length_drop, hlen]
      have hdec := segs_decompose segs s l (fun j hj => zeroRun_spec segs j hj) (by omega)
      have : 8 - s - (8 - (s + l)) = l := by omega
      rw [this, ← hdec]
      rfl
    · -- no compressible zero run: all eight groups are printed
      rcases hsegs : segs with _ | ⟨s0, stail⟩
      · rw [hsegs] at hlen
        simp at hlen
      have hwf' : ∀ y ∈ s0 :: stail, y < 65536 := by
        rw [← hsegs]
        exact hbound
      have hlen' : 0 + (s0 :: stail).length ≤ 8 := by
        rw [← hsegs]
        rw [hlen]
      have hj := readGroups_join stail s0 0 8 rest hwf' hlen' hstop
      rw [if_pos rfl, List.nil_append] at hj
      simp only [readIpv6]
      rw [hj]
      rw [if_pos (show (s0 :: stail).length = 8 by rw [← hsegs]; exact hlen)]

theorem readPort_display (port : Nat) (hp : port < 65536) :
    readPort (':' :: natToDec port) = some (port, []) := by
  simp only [readPort, expectChar_cons, Option.some_bind, Option.bind_eq_bind]
  rw [show natToDec port = natToDec port ++ [] from (List.append_nil _).symm]
  exact readNumber_dec port 65536 none true [] hp (fun m hm => absurd hm (by simp))
    (fun c hc => by simp at hc)

theorem readSocketAddrV4_display (ip : Ipv4Addr) (port : Nat) (hwf : ip.Wf)
    (hp : port < 65536) :
    readSocketAddrV4 (ip.display ++ ':' :: natToDec port) = some (.v4 ip port, []) := by
  simp only [readSocketAddrV4, Option.bind_eq_bind]
  rw [readIpv4_display ip hwf _ (headNot_cons ':' _ (by decide)), Option.some_bind]
  rw [readPort_display port hp, Option.some_bind]
  rfl

/-- The string form of a socket address parses back to the address with its
v6 `flowinfo` replaced by 0: every field but `flowinfo` survives the round
trip, because `Display` never prints `flowinfo` and the parser builds the
address with `flowinfo` 0. -/
theorem parseSocketAddr_display (sa : SocketAddr) (hwf : sa.Wf) :
    parseSocketAddr sa.display = some sa.flowinfoCleared := by
  cases sa with
  | v4 ip port =>
    obtain ⟨hip, hp⟩ := hwf
    show parseSocketAddr (ip.display ++ ':' :: natToDec port) = _
    rw [parseSocketAddr, readSocketAddrV4_display ip port hip hp]
    rfl
  | v6 ip port flowinfo scopeId =>
    obtain ⟨hip, hp, hfl, hsc⟩ := hwf
    have hv4fail : ∀ t, readSocketAddrV4 ('[' :: t) = none := by
      intro t
      simp only [readSocketAddrV4, Option.bind_eq_bind]
      rw [readIpv4_none _ (headNot_cons '[' _ (by decide))]
      rfl
    show parseSocketAddr (SocketAddr.display (.v6 ip port flowinfo scopeId))
      = some (.v6 ip port 0 scopeId)
    by_cases hz : scopeId = 0
    · subst hz
      show parseSocketAddr ('[' :: (ip.display ++ ']' :: ':' :: natToDec port)) = _
      rw [parseSocketAddr, hv4fail]
      simp only [readSocketAddrV6, expectChar_cons, Option.some_bind, Option.bind_eq_bind]
      rw [readIpv6_display ip hip _
        (groupStop_cons_of_not_hex ']' _ (by decide) (by decide) (by decide)),
        Option.some_bind]
      rw [show readScope (']' :: ':' :: natToDec port) = (0, ']' :: ':' :: natToDec port)
        from rfl]
      simp only [expectChar_cons, Option.some_bind]
      rw [readPort_display port hp, Option.some_bind]
    · have hd : (SocketAddr.v6 ip port flowinfo scopeId).display
          = '[' :: (ip.display ++ '%' :: natToDec scopeId ++ ']' :: ':' :: natToDec port) := by
        simp only [SocketAddr.display, if_neg hz]
      rw [show SocketAddr.display (.v6 ip port flowinfo scopeId)
          = (SocketAddr.v6 ip port flowinfo scopeId).display from rfl]
      rw [hd, parseSocketAddr, hv4fail]
      simp only [readSocketAddrV6, expectChar_cons, Option.some_bind, Option.bind_eq_bind,
        List.cons_append, List.append_assoc]
      rw [readIpv6_display ip hip _
        (groupStop_cons_of_not_hex '%' _ (by decide) (by decide) (by decide)),
        Option.some_bind]
      have hscope : readScope ('%' :: (natToDec scopeId ++ ']' :: ':' :: natToDec port))
          = (scopeId, ']' :: ':' :: natToDec port) := by
        simp only [readScope, expectChar_cons]
        rw [readNumber_dec scopeId 4294967296 none true _ hsc
          (fun m hm => absurd hm (by simp)) (headNot_cons ']' _ (by decide))]
      rw [hscope]
      simp only [expectChar_cons, Option.some_bind]
      rw [readPort_display port hp, Option.some_bind]

theorem ipv4_display_chars (x : Ipv4Addr) :
    ∀ c ∈ x.display, isDecDigit c = true ∨ c = '.' := by
  intro c hc
  simp only [Ipv4Addr.display, List.mem_append, List.mem_cons] at hc
  have h1 := natToDec_all_dec x.a c
  have h2 := natToDec_all_dec x.b c
  have h3 := natToDec_all_dec x.c c
  have h4 := natToDec_all_dec x.d c
  tauto

theorem joinColon_chars (gs : List Nat) :
    ∀ c ∈ joinColon gs, isHexDigit c = true ∨ c = ':' := by
  induction gs using joinColon.induct with
  | case1 =>
    intro c hc
    simp [joinColon] at hc
  | case2 g =>
    intro c hc
    simp only [joinColon] at hc
    exact Or.inl (natToHex_all_hex g c hc)
  | case3 g g' gs' ih =>
    intro c hc
    simp only [joinColon, List.mem_append, List.mem_cons] at hc
    rcases hc with h | h | h
    · exact Or.inl (natToHex_all_hex g c h)
    · exact Or.inr h
    · exact ih c h

theorem ipv6_display_chars (x : Ipv6Addr) :
    ∀ c ∈ x.display, isHexDigit c = true ∨ c = ':' ∨ c = '.' := by
  intro c hc
  rw [Ipv6Addr.display] at hc
  split at hc
  · simp only [List.mem_append] at hc
    rcases hc with h | h
    · fin_cases h <;> first | exact Or.inl (by decide) | exact Or.inr (Or.inl rfl)
    · rcases ipv4_display_chars _ c h with h2 | h2
      · exact Or.inl (isHexDigit_of_isDecDigit c h2)
      · exact Or.inr (Or.inr h2)
  · split at hc
    · simp only [List.mem_append, List.mem_cons] at hc
      rcases hc with h | h | h | h
      · rcases joinColon_chars _ c h with h2 | h2
        · exact Or.inl h2
        · exact Or.inr (Or.inl h2)
      · exact Or.inr (Or.inl h)
      · exact Or.inr (Or.inl h)
      · rcases joinColon_chars _ c h with h2 | h2
        · exact Or.inl h2
        · exact Or.inr (Or.inl h2)
    · rcases joinColon_chars _ c hc with h2 | h2
      · exact Or.inl h2
      · exact Or.inr (Or.inl h2)

theorem colon_mem_ipv6_display (x : Ipv6Addr) (hlen : x.segs.length = 8) :
    ':' ∈ x.display := by
  rw [Ipv6Addr.display]
  split
  · simp
  · split
    · simp
    · obtain ⟨s0, s1, s2, s3, s4, s5, s6, s7, hsegs⟩ := list_len8 x.segs hlen
      rw [hsegs]
      show ':' ∈ natToHex s0 ++ ':' :: joinColon [s1, s2, s3, s4, s5, s6, s7]
      simp

theorem expectChar_some (c : Char) (cs r : List Char) (h : expectChar c cs = some r) :
    cs = c :: r := by
  cases cs with
  | nil => exact absurd h (by simp [expectChar])
  | cons c' t =>
    simp only [expectChar] at h
    split at h
    · rename_i he
      rw [Option.some.injEq] at h
      rw [he, h]
    · exact absurd h (by simp)

theorem readIpv4_consumed (cs : List Char) (ip : Ipv4Addr) (r : List Char)
    (h : readIpv4 cs = some (ip, r)) :
    ∃ pre, cs = pre ++ r ∧ ∀ c ∈ pre, isDecDigit c = true ∨ c = '.' := by
  simp only [readIpv4, readOctet, Option.bind_eq_bind] at h
  rw [Option.bind_eq_some] at h
  obtain ⟨⟨v1, r1⟩, h1, h⟩ := h
  rw [Option.bind_eq_some] at h
  obtain ⟨r1', he1, h⟩ := h
  rw [Option.bind_eq_some] at h
  obtain ⟨⟨v2, r2⟩, h2, h⟩ := h
  rw [Option.bind_eq_some] at h
  obtain ⟨r2', he2, h⟩ := h
  rw [Option.bind_eq_some] at h
  obtain ⟨⟨v3, r3⟩, h3, h⟩ := h
  rw [Option.bind_eq_some] at h
  obtain ⟨r3', he3, h⟩ := h
  rw [Option.bind_eq_some] at h
  obtain ⟨⟨v4, r4⟩, h4, h⟩ := h
  simp only [pure, Option.some.injEq, Prod.mk.injEq] at h
  obtain ⟨-, hr⟩ := h
  obtain ⟨p1, hc1, hd1, -⟩ := readNumber_some _ _ _ _ _ _ _ _ _ h1
  obtain ⟨p2, hc2, hd2, -⟩ := readNumber_some _ _ _ _ _ _ _ _ _ h2
  obtain ⟨p3, hc3, hd3, -⟩ := readNumber_some _ _ _ _ _ _ _ _ _ h3
  obtain ⟨p4, hc4, hd4, -⟩ := readNumber_some _ _ _ _ _ _ _ _ _ h4
  have hb1 : r1 = '.' :: r1' := expectChar_some _ _ _ he1
  have hb2 : r2 = '.' :: r2' := expectChar_some _ _ _ he2
  have hb3 : r3 = '.' :: r3' := expectChar_some _ _ _ he3
  refine ⟨p1 ++ '.' :: p2 ++ '.' :: p3 ++ '.' :: p4, ?_, ?_⟩
  · subst hr
    rw [hc1, hb1, hc2, hb2, hc3, hb3, hc4]
    simp [List.append_assoc]
  · intro c hc
    simp only [List.mem_append, List.mem_cons] at hc
    have q1 := hd1 c
    have q2 := hd2 c
    have q3 := hd3 c
    have q4 := hd4 c
    tauto

theorem splitSlash_eq (front back : List Char) (hf : ∀ c ∈ front, (c != '/') = true) :
    splitSlash (front ++ '/' :: back) = (front, some back) := by
  obtain ⟨htw, hdw⟩ := takeWhile_append_all front ('/' :: back) hf
    (headNot_cons '/' back (by decide))
  simp only [splitSlash, htw, hdw, expectChar_cons]

theorem parseIpv4Full_display (x : Ipv4Addr) (hwf : x.Wf) :
    parseIpv4Full x.display = some x := by
  rw [parseIpv4Full]
  rw [show x.display = x.display ++ [] from (List.append_nil _).symm]
  rw [readIpv4_display x hwf [] (fun c hc => by simp at hc)]

theorem parseIpv6Full_display (x : Ipv6Addr) (hwf : x.Wf) :
    parseIpv6Full x.display = some x := by
  rw [parseIpv6Full]
  rw [show x.display = x.display ++ [] from (List.append_nil _).symm]
  rw [readIpv6_display x hwf [] groupStop_nil]

theorem parsePrefixLen_display (len maxLen : Nat) (hm : len ≤ maxLen) (hb : maxLen < 256) :
    parsePrefixLen (natToDec len) maxLen = some len := by
  rw [parsePrefixLen]
  rw [show natToDec len = natToDec len ++ [] from (List.append_nil _).symm]
  rw [readNumber_dec len 256 none true [] (by omega) (fun m hm => absurd hm (by simp))
    (fun c hc => by simp at hc)]
  show (if len ≤ maxLen then some len else none) = some len
  rw [if_pos hm]

theorem parseIpv4Full_ipv6_none (x : Ipv6Addr) (hlen : x.segs.length = 8) :
    parseIpv4Full x.display = none := by
  rw [parseIpv4Full]
  cases h : readIpv4 x.display with
  | none => rfl
  | some vr =>
    obtain ⟨ip, r⟩ := vr
    cases r with
    | nil =>
      obtain ⟨pre, hpre, hchars⟩ := readIpv4_consumed _ _ _ h
      rw [List.append_nil] at hpre
      have hcolon := colon_mem_ipv6_display x hlen
      rw [hpre] at hcolon
      rcases hchars ':' hcolon with h2 | h2
      · exact absurd h2 (by decide)
      · exact absurd h2 (by decide)
    | cons c t => rfl

theorem ipv4_display_no_slash (x : Ipv4Addr) : ∀ c ∈ x.display, (c != '/') = true := by
  intro c hc
  rw [bne_iff_ne]
  rcases ipv4_display_chars x c hc with h | h
  · intro he
    subst he
    exact absurd h (by decide)
  · subst h
    decide

theorem ipv6_display_no_slash (x : Ipv6Addr) : ∀ c ∈ x.display, (c != '/') = true := by
  intro c hc
  rw [bne_iff_ne]
  rcases ipv6_display_chars x c hc with h | h | h
  · intro he
    subst he
    exact absurd h (by decide)
  · subst h
    decide
  · subst h
    decide

theorem parseIpNetwork_display (n : IpNetwork) (hwf : n.Wf) :
    parseIpNetwork n.display = some n := by
  cases n with
  | v4 addr len =>
    obtain ⟨haddr, hlen⟩ := hwf
    have hp4 : parseIpv4Network (addr.display ++ '/' :: natToDec len)
        = some (IpNetwork.v4 addr len) := by
      simp only [parseIpv4Network, splitSlash_eq addr.display (natToDec len)
        (ipv4_display_no_slash addr), Option.bind_eq_bind]
      rw [parseIpv4Full_display addr haddr, Option.some_bind]
      rw [parsePrefixLen_display len 32 hlen (by norm_num), Option.some_bind]
      rfl
    show parseIpNetwork (addr.display ++ '/' :: natToDec len) = _
    rw [parseIpNetwork, hp4]
  | v6 addr len =>
    obtain ⟨haddr, hlen⟩ := hwf
    have hp4 : parseIpv4Network (addr.display ++ '/' :: natToDec len) = none := by
      simp only [parseIpv4Network, splitSlash_eq addr.display (natToDec len)
        (ipv6_display_no_slash addr), Option.bind_eq_bind]
      rw [parseIpv4Full_ipv6_none addr haddr.1]
      rfl
    have hp6 : parseIpv6Network (addr.display ++ '/' :: natToDec len)
        = some (IpNetwork.v6 addr len) := by
      simp only [parseIpv6Network, splitSlash_eq addr.display (natToDec len)
        (ipv6_display_no_slash addr), Option.bind_eq_bind]
      rw [parseIpv6Full_display addr haddr, Option.some_bind]
      rw [parsePrefixLen_display len 128 hlen (by norm_num), Option.some_bind]
      rfl
    show parseIpNetwork (addr.display ++ '/' :: natToDec len) = _
    rw [parseIpNetwork, hp4, hp6]

/-! ## The D-Bus wire model and `convert_config_to_dbus`

`VariantMap` is `HashMap<String, Variant<Box<dyn RefArg>>>` modelled as an
association list: insertion prepends, lookup returns the most recently
inserted binding, which is observationally `HashMap::insert`/`get`.
-/

inductive DbusValue where
  | u32 (n : Nat)
  | boolean (b : Bool)
  | str (s : String)
  | strList (l : List String)
  | mapList (l : List (List (String × DbusValue)))
  | addrList (l : List IpNetwork)

abbrev VariantMap := List (String × DbusValue)

abbrev DeviceConfig := List (String × VariantMap)

/-- `HashMap::insert` over the association-list model. -/
def mapInsert {α : Type} (k : String) (v : α) (m : List (String × α)) : List (String × α) :=
  (k, v) :: m

/-- `HashMap::get` over the association-list model. -/
def mapLookup {α : Type} (k : String) : List (String × α) → Option α
  | [] => none
  | (k', v) :: m => if k' = k then some v else mapLookup k m

/-- Modelled from the spec: a WireGuard peer (the `Peer` of
`talpid-types::net::wireguard`, which is outside `src/`): a 32-byte public key,
a socket-address endpoint, and an ordered list of allowed-IP prefixes. -/
structure Peer where
  public_key : List Nat
  endpoint : SocketAddr
  allowed_ips : List IpNetwork
deriving DecidableEq

/-- Modelled from the spec: the interface part of a tunnel config (the
`TunnelConfig` accessed as `config.tunnel` in `nm_tunnel.rs`): a 32-byte
private key and the interface address prefixes. -/
structure TunnelConfig where
  private_key : List Nat
  addresses : List IpNetwork
deriving DecidableEq

/-- Modelled from the spec: the backend-agnostic tunnel `Config` (defined in
`talpid-wireguard/src/config.rs`, outside `src/`), restricted to the fields
`convert_config_to_dbus` and the lifecycle operations read: `tunnel`
(private key and addresses), `mtu` (u16), `fwmark` (optional u32), and the
caller-supplied ordered peer sequence returned by `Config::peers()`. -/
structure Config where
  tunnel : TunnelConfig
  mtu : Nat
  fwmark : Option Nat
  peers : List Peer
deriving DecidableEq

/-- A well-formed 32-byte key. -/
def bytesWf (k : List Nat) : Prop := k.length = 32 ∧ ∀ b ∈ k, b < 256

instance (k : List Nat) : Decidable (bytesWf k) := by unfold bytesWf; infer_instance

def Peer.Wf (p : Peer) : Prop :=
  bytesWf p.public_key ∧ p.endpoint.Wf ∧ ∀ n ∈ p.allowed_ips, n.Wf

instance (p : Peer) : Decidable p.Wf := by unfold Peer.Wf; infer_instance

/-- Machine-integer ranges of the Rust `Config` fields (`getD 0` encodes "the
fwmark, when present, fits in a u32"). -/
def Config.Wf (c : Config) : Prop :=
  bytesWf c.tunnel.private_key ∧ (∀ n ∈ c.tunnel.addresses, n.Wf) ∧ c.mtu < 65536 ∧
    c.fwmark.getD 0 < 4294967296 ∧ ∀ p ∈ c.peers, p.Wf

instance (c : Config) : Decidable c.Wf := by unfold Config.Wf; infer_instance

/-- Modelled from the spec: the product's well-known interface name
(`crate::config::MULLVAD_INTERFACE_NAME`, defined outside `src/`; the spec
calls it "the product's well-known interface name", used both as connection
id/interface-name and as the fallback when name resolution fails). -/
def MULLVAD_INTERFACE_NAME : String := "wg0-mullvad"

/-- `convert_config_to_dbus` from `nm_tunnel.rs`, transcribed insertion by
insertion. The backend address records produced by
`NetworkManager::convert_address_to_dbus` (in `talpid-dbus`, outside `src/`)
are modelled opaquely by the `IpNetwork` they encode. -/
def convert_config_to_dbus (config : Config) : DeviceConfig :=
  let ipv6_config : VariantMap := []
  let ipv4_config : VariantMap := []
  let wireguard_config : VariantMap := []
  let connection_config : VariantMap := []
  let wireguard_config := mapInsert "mtu" (DbusValue.u32 config.mtu) wireguard_config
  let wireguard_config := match config.fwmark with
    | some fwmark => mapInsert "fwmark" (DbusValue.u32 fwmark) wireguard_config
    | none => wireguard_config
  let wireguard_config := mapInsert "peer-routes" (DbusValue.boolean false) wireguard_config
  let wireguard_config := mapInsert "private-key"
    (DbusValue.str (keyToBase64 config.tunnel.private_key)) wireguard_config
  let wireguard_config := mapInsert "private-key-flags" (DbusValue.u32 0) wireguard_config
  let peer_configs := config.peers.map (fun peer =>
    let peer_config : VariantMap := []
    let allowed_ips := peer.allowed_ips.map (fun ip => ip.toDisplayString)
    let peer_config := mapInsert "allowed-ips" (DbusValue.strList allowed_ips) peer_config
    let peer_config := mapInsert "endpoint"
      (DbusValue.str peer.endpoint.toDisplayString) peer_config
    let peer_config := mapInsert "public-key"
      (DbusValue.str (keyToBase64 peer.public_key)) peer_config
    peer_config)
  let wireguard_config := mapInsert "peers" (DbusValue.mapList peer_configs) wireguard_config
  let connection_config := mapInsert "type" (DbusValue.str "wireguard") connection_config
  let connection_config := mapInsert "id"
    (DbusValue.str MULLVAD_INTERFACE_NAME) connection_config
  let connection_config := mapInsert "interface-name"
    (DbusValue.str MULLVAD_INTERFACE_NAME) connection_config
  let connection_config := mapInsert "autoconnect" (DbusValue.boolean true) connection_config
  let ipv4_addrs := config.tunnel.addresses.filter (fun ip => ip.isIpv4)
  let ipv6_addrs := config.tunnel.addresses.filter (fun ip => ip.isIpv6)
  let ipv4_config := mapInsert "address-data" (DbusValue.addrList ipv4_addrs) ipv4_config
  let ipv4_config := mapInsert "ignore-auto-routes" (DbusValue.boolean true) ipv4_config
  let ipv4_config := mapInsert "ignore-auto-dns" (DbusValue.boolean true) ipv4_config
  let ipv4_config := mapInsert "may-fail" (DbusValue.boolean true) ipv4_config
  let ipv4_config := mapInsert "method" (DbusValue.str "manual") ipv4_config
  let ipv4_config := mapInsert "never-default" (DbusValue.boolean true) ipv4_config
  let ipv6_config := if !ipv6_addrs.isEmpty then
      let ipv6_config := mapInsert "method" (DbusValue.str "manual") ipv6_config
      let ipv6_config := mapInsert "address-data" (DbusValue.addrList ipv6_addrs) ipv6_config
      let ipv6_config := mapInsert "ignore-auto-routes" (DbusValue.boolean true) ipv6_config
      let ipv6_config := mapInsert "ignore-auto-dns" (DbusValue.boolean true) ipv6_config
      let ipv6_config := mapInsert "may-fail" (DbusValue.boolean true) ipv6_config
      ipv6_config
    else ipv6_config
  let settings : DeviceConfig := []
  let settings := mapInsert "ipv4" ipv4_config settings
  let settings := if !ipv6_config.isEmpty then mapInsert "ipv6" ipv6_config settings
    else settings
  let settings := mapInsert "wireguard" wireguard_config settings
  let settings := mapInsert "connection" connection_config settings
  settings

/-- What the claim asks of one wire-schema peer entry: the base64 public key,
the endpoint string, and the allowed-IP strings all parse back to the original
peer bit for bit. -/
def peerEntryMatches (pm : VariantMap) (p : Peer) : Prop :=
  (∃ ks, mapLookup "public-key" pm = some (DbusValue.str ks) ∧
    b64Decode ks.data = some p.public_key) ∧
  (∃ es, mapLookup "endpoint" pm = some (DbusValue.str es) ∧
    parseSocketAddr es.data = some p.endpoint) ∧
  (∃ ls, mapLookup "allowed-ips" pm = some (DbusValue.strList ls) ∧
    ls.map (fun s => parseIpNetwork s.data) = p.allowed_ips.map some)

theorem zip_map_forall {α β : Type} (f : α → β) (P : β → α → Prop) :
    ∀ l : List α, (∀ x ∈ l, P (f x) x) → ∀ pr ∈ (l.map f).zip l, P pr.1 pr.2 := by
  intro l
  induction l with
  | nil =>
    intro _ pr hpr
    simp at hpr
  | cons x xs ih =>
    intro h pr hpr
    rw [List.map_cons, List.zip_cons_cons, List.mem_cons] at hpr
    rcases hpr with rfl | hpr
    · exact h x (by simp)
    · exact ih (fun y hy => h y (by simp [hy])) pr hpr

theorem peerEntryMatches_build (p : Peer) (hwf : p.Wf)
    (hflow : p.endpoint.flowinfoZero) :
    peerEntryMatches
      (mapInsert "public-key" (DbusValue.str (keyToBase64 p.public_key))
        (mapInsert "endpoint" (DbusValue.str p.endpoint.toDisplayString)
          (mapInsert "allowed-ips" (DbusValue.strList (p.allowed_ips.map
            (fun ip => ip.toDisplayString))) []))) p := by
  obtain ⟨hkey, hep, hips⟩ := hwf
  refine ⟨⟨_, rfl, ?_⟩, ⟨_, rfl, ?_⟩, ⟨_, rfl, ?_⟩⟩
  · show b64Decode (b64Encode p.public_key) = some p.public_key
    exact b64_roundtrip _ hkey.2
  · show parseSocketAddr p.endpoint.display = some p.endpoint
    rw [parseSocketAddr_display _ hep, SocketAddr.flowinfoCleared_eq_self _ hflow]
  · show (p.allowed_ips.map (fun ip => ip.toDisplayString)).map (fun s => parseIpNetwork s.data)
      = p.allowed_ips.map some
    rw [List.map_map]
    apply List.map_congr_left
    intro ip hip
    show parseIpNetwork ip.display = some ip
    exact parseIpNetwork_display ip (hips ip hip)

/-- C1 (amended): for every well-formed Config with at least one peer whose
IPv6 endpoints all carry zero `flowinfo`, the `wireguard` section of
`convert_config_to_dbus` holds a `peers` entry with one map per peer, in the
caller-supplied order with no deduplication or sorting (the entry list is
index-for-index aligned with `config.peers`), and each entry's base64 public
key, endpoint string, and allowed-IP strings parse back to the original peer
values bit for bit. The zero-`flowinfo` restriction is forced by
`C1_flowinfo_counterexample`: the endpoint string never carries `flowinfo`,
so a nonzero `flowinfo` cannot survive the round trip. -/
theorem C1_peers_roundtrip (config : Config) (hwf : config.Wf)
    (hflow : ∀ p ∈ config.peers, p.endpoint.flowinfoZero)
    (_hne : config.peers ≠ []) :
    ∃ wg pl,
      mapLookup "wireguard" (convert_config_to_dbus config) = some wg ∧
      mapLookup "peers" wg = some (DbusValue.mapList pl) ∧
      pl.length = config.peers.length ∧
      ∀ pr ∈ pl.zip config.peers, peerEntryMatches pr.1 pr.2 := by
  obtain ⟨-, -, -, -, hpeers⟩ := hwf
  refine ⟨_, _, rfl, rfl, by simp, ?_⟩
  exact zip_map_forall _ _ config.peers
    (fun p hp => peerEntryMatches_build p (hpeers p hp) (hflow p hp))

/-- C2: the `wireguard` section always exists and its `fwmark` entry is the
image of `config.fwmark`: present with value `n` exactly when
`fwmark = Some(n)` (so `Some(0)` yields an entry with value 0) and absent
exactly when `fwmark = None`, making the two distinguishable. -/
theorem C2_fwmark_iff (config : Config) :
    ∃ wg, mapLookup "wireguard" (convert_config_to_dbus config) = some wg ∧
      mapLookup "fwmark" wg = config.fwmark.map DbusValue.u32 := by
  refine ⟨_, rfl, ?_⟩
  cases config.fwmark with
  | none => rfl
  | some f => rfl

/-- C3: when the Config's addresses contain no IPv6 prefix, the produced
settings map has no `ipv6` key at all, while the `ipv4` section is present and
its `address-data` holds exactly the IPv4 prefixes (only addresses of the
matching family). -/
theorem C3_ipv6_section_omitted (config : Config)
    (h : ∀ a ∈ config.tunnel.addresses, a.isIpv4 = true) :
    mapLookup "ipv6" (convert_config_to_dbus config) = none ∧
    (mapLookup "ipv4" (convert_config_to_dbus config)).bind (mapLookup "address-data") =
      some (DbusValue.addrList (config.tunnel.addresses.filter (fun ip => ip.isIpv4))) ∧
    ∀ a ∈ config.tunnel.addresses.filter (fun ip => ip.isIpv4), a.isIpv4 = true := by
  have h6 : config.tunnel.addresses.filter (fun ip => ip.isIpv6) = [] := by
    rw [List.filter_eq_nil_iff]
    intro a ha
    have h4 := h a ha
    cases a with
    | v4 addr len => simp [IpNetwork.isIpv6]
    | v6 addr len => simp [IpNetwork.isIpv4] at h4
  refine ⟨?_, ?_, ?_⟩
  · simp only [convert_config_to_dbus, h6]
    rfl
  · simp only [convert_config_to_dbus, h6]
    rfl
  · intro a ha
    exact List.of_mem_filter ha

/-! ## The NetworkManager backend lifecycle

`NetworkManagerTunnel` and its `Tunnel` implementation from `nm_tunnel.rs`,
as explicit state passing: a `World` supplies the outcomes of the D-Bus and
netlink calls an operation makes, and each operation returns its result, the
post-state of the backend's fields, and the list of observable side effects
(netlink mutations, profile removals, `log` statements) it performed, in
order. `stop` consumes the handle in Rust (`Box<Self>`); it is modelled as
also returning the final state of the fields so that consumption
(`self.tunnel.take()`) is visible. -/

/-- Opaque payload of a `talpid_dbus::dbus::Error`. -/
structure DbusError where
  code : Nat
deriving DecidableEq

/-- Opaque payload of a `talpid_dbus::network_manager::Error`. -/
structure NetworkManagerError where
  code : Nat
deriving DecidableEq

/-- `nm_tunnel::Error`: transport failure over D-Bus versus a NetworkManager
service-level failure, kept as distinct variants with their sources. -/
inductive NMTunnelError where
  | dbus (e : DbusError)
  | networkManager (e : NetworkManagerError)
deriving DecidableEq

/-- The variants of `super::Error` (`wireguard_kernel::Error`) that
`NetworkManagerTunnel::new` can surface: a NetworkManager error, or a netlink
channel connection error (opaque). -/
inductive WgKernelError where
  | networkManager (e : NMTunnelError)
  | netlink (code : Nat)
deriving DecidableEq

/-- The variants of `TunnelError` (from `talpid-wireguard`, outside `src/`)
that this backend surfaces: profile-removal failure (wrapping its cause),
device-query failure, config-apply failure, and the capability rejection for
DAITA. -/
inductive TunnelError where
  | StopWireguardError (e : NetworkManagerError)
  | GetConfigError
  | SetConfigError
  | DaitaNotSupported
deriving DecidableEq

/-- Opaque profile handle returned by `create_wg_tunnel`. -/
structure WireguardTunnel where
  id : Nat
deriving DecidableEq

/-- Modelled from the spec: `DaitaSettings` (from `talpid-tunnel-config-client`,
outside `src/`), an opaque per-tunnel obfuscation parameter set. -/
structure DaitaSettings where
  params : Nat
deriving DecidableEq

/-- Modelled from the spec: one peer of a netlink device message, carrying the
public key and the raw traffic counters. -/
structure DevicePeer where
  public_key : List Nat
  tx_bytes : Nat
  rx_bytes : Nat
deriving DecidableEq

/-- Modelled from the spec: the netlink `Device` snapshot returned by
`get_by_name`. -/
structure Device where
  ifindex : Nat
  peers : List DevicePeer
deriving DecidableEq

/-- Per-peer traffic counters. -/
structure Stats where
  tx_bytes : Nat
  rx_bytes : Nat
deriving DecidableEq

/-- Mapping from peer public key to its counters. -/
abbrev StatsMap := List (List Nat × Stats)

/-- Modelled from the spec: `Stats::parse_device_message` (in `stats.rs`,
outside `src/`): pure and total, one entry per peer, counters taken verbatim;
a device with zero peers produces an empty map. -/
def Stats.parse_device_message (d : Device) : StatsMap :=
  d.peers.map (fun p => (p.public_key, ⟨p.tx_bytes, p.rx_bytes⟩))

inductive LogLevel where
  | error
  | warn
  | info
deriving DecidableEq

/-- Observable side effects of a lifecycle operation, in program order. -/
inductive Effect where
  | removeTunnel (t : WireguardTunnel)
  | setDevice (index : Nat) (config : Config)
  | getDeviceByName (name : String)
  | log (level : LogLevel) (site : String)
deriving DecidableEq

/-- The environment a lifecycle operation runs against: outcomes of the
D-Bus and netlink calls. -/
structure World where
  nmNew : Except NetworkManagerError Unit
  createTunnel : DeviceConfig → Except NetworkManagerError WireguardTunnel
  getNMInterfaceName : WireguardTunnel → Except NetworkManagerError String
  connect : Except WgKernelError Unit
  removeTunnel : WireguardTunnel → Except NetworkManagerError Unit
  ifaceIndex : String → Except Nat Nat
  getByName : String → Except Nat Device
  setDevice : Nat → Config → Except Nat Unit

/-- The fields of `NetworkManagerTunnel` that carry state: the owned profile
handle (an `Option` because `stop` takes it), and the resolved interface
name. The `network_manager` and `netlink_connections` handles are shared
connections represented by the `World`. -/
structure NMState where
  tunnel : Option WireguardTunnel
  interface_name : String
deriving DecidableEq

/-- `NetworkManagerTunnel::new`: connect to NetworkManager, translate the
config, create the profile; resolve the interface name, falling back to
`MULLVAD_INTERFACE_NAME` with an error-level log when the query fails;
then block on the netlink channel setup. Any failure other than the name
query aborts construction. -/
def NetworkManagerTunnel.new (w : World) (config : Config) :
    Except WgKernelError NMState × List Effect :=
  match w.nmNew with
  | .error e => (.error (.networkManager (.networkManager e)), [])
  | .ok _ =>
    let config_map := convert_config_to_dbus config
    match w.createTunnel config_map with
    | .error e => (.error (.networkManager (.networkManager e)), [])
    | .ok tunnel =>
      let nameLogs := match w.getNMInterfaceName tunnel with
        | .ok name => (name, ([] : List Effect))
        | .error _ =>
            (MULLVAD_INTERFACE_NAME, [.log .error "Failed to fetch interface name from NM"])
      match w.connect with
      | .error e => (.error e, nameLogs.2)
      | .ok _ => (.ok ⟨some tunnel, nameLogs.1⟩, nameLogs.2)

/-- `Tunnel::get_interface_name` for the NetworkManager backend. -/
def NetworkManagerTunnel.get_interface_name (s : NMState) : String :=
  s.interface_name

/-- `Tunnel::stop`: take the profile handle out of the option; if one was
present, ask NetworkManager to remove it, logging and returning an error on
failure; if none was present, succeed without doing anything. -/
def NetworkManagerTunnel.stop (s : NMState) (w : World) :
    Except TunnelError Unit × NMState × List Effect :=
  match s.tunnel with
  | some tunnel =>
    match w.removeTunnel tunnel with
    | .error err =>
        (.error (.StopWireguardError err), { s with tunnel := none },
          [.removeTunnel tunnel, .log .error "Failed to remove WireGuard tunnel via NM"])
    | .ok _ => (.ok (), { s with tunnel := none }, [.removeTunnel tunnel])
  | none => (.ok (), s, [])

/-- `Tunnel::get_tunnel_stats`: query the device by the stored interface name
and parse the counters; a lookup miss surfaces `GetConfigError`. Takes the
backend by shared reference, so there is no post-state. -/
def NetworkManagerTunnel.get_tunnel_stats (s : NMState) (w : World) :
    Except TunnelError StatsMap × List Effect :=
  match w.getByName s.interface_name with
  | .error _ =>
      (.error .GetConfigError,
        [.getDeviceByName s.interface_name,
          .log .error "Failed to fetch WireGuard device config"])
  | .ok device =>
      (.ok (Stats.parse_device_message device), [.getDeviceByName s.interface_name])

/-- `Tunnel::set_config`: resolve the interface index by name inside the call,
immediately before the netlink mutation, then apply the whole config at that
index; either failure surfaces `SetConfigError`. No field of the backend is
written. -/
def NetworkManagerTunnel.set_config (s : NMState) (config : Config) (w : World) :
    Except TunnelError Unit × NMState × List Effect :=
  match w.ifaceIndex s.interface_name with
  | .error _ =>
      (.error .SetConfigError, s, [.log .error "Failed to fetch WireGuard device index"])
  | .ok index =>
    match w.setDevice index config with
    | .error _ =>
        (.error .SetConfigError, s,
          [.setDevice index config, .log .error "Failed to apply WireGuard config"])
    | .ok _ => (.ok (), s, [.setDevice index config])

/-- `Tunnel::start_daita`: outright fail — this tunnel type does not support
DAITA. No call is made and no field is written. -/
def NetworkManagerTunnel.start_daita (s : NMState) (_settings : DaitaSettings) :
    Except TunnelError Unit × NMState × List Effect :=
  (.error .DaitaNotSupported, s, [])

/-! ## `AddressCache` (`mullvad-api/src/address_cache.rs`)

`set_address` / `save_to_disk` as explicit state passing. The on-disk write
goes through `mullvad_fs::AtomicFile` (outside `src/`; per the spec an
atomic-file persistence primitive): open a temporary file, write, and
`finalize` by renaming, so a file becomes visible at the cache path only when
`finalize` succeeds — the `.finalized` effect records that visible write. -/

/-- `address_cache::Error`. -/
inductive ACError where
  | Open (code : Nat)
  | Read (code : Nat)
  | Parse
  | Write (code : Nat)
deriving DecidableEq

/-- Outcomes of the three filesystem steps of `save_to_disk`. -/
structure FsWorld where
  openFile : String → Except Nat Unit
  writeAll : String → Except Nat Unit
  finalize : String → Except Nat Unit

inductive FsEffect where
  | finalized (path : String) (contents : String)
deriving DecidableEq

/-- The state guarded by the cache mutex, together with the configured write
path (`None` disables persistence). -/
structure ACState where
  hostname : String
  address : SocketAddr
  write_path : Option String
deriving DecidableEq

/-- `AddressCache::save_to_disk`: no-op without a write path; otherwise open an
atomic file, write `address.to_string() + "\n"`, and finalize; open failures
map to `Error::Open` and write/finalize failures to `Error::Write`. -/
def AddressCache.save_to_disk (s : ACState) (address : SocketAddr) (w : FsWorld) :
    Except ACError Unit × List FsEffect :=
  match s.write_path with
  | none => (.ok (), [])
  | some p =>
    match w.openFile p with
    | .error e => (.error (.Open e), [])
    | .ok _ =>
      let contents := address.toDisplayString ++ "\n"
      match w.writeAll p with
      | .error e => (.error (.Write e), [])
      | .ok _ =>
        match w.finalize p with
        | .error e => (.error (.Write e), [])
        | .ok _ => (.ok (), [.finalized p contents])

/-- `AddressCache::set_address`: under the mutex, compare with the stored
address; only when they differ, save to disk first (`?` propagates the error)
and update the in-memory address afterwards. -/
def AddressCache.set_address (s : ACState) (address : SocketAddr) (w : FsWorld) :
    Except ACError Unit × ACState × List FsEffect :=
  if address ≠ s.address then
    match AddressCache.save_to_disk s address w with
    | (.error e, eff) => (.error e, s, eff)
    | (.ok _, eff) => (.ok (), { s with address := address }, eff)
  else (.ok (), s, [])

/-- C4: `stop` is idempotent. A backend whose profile is already released
stops successfully with no removal, no log, and no other side effect; `stop`
always leaves the profile handle taken (consumed), even when removal fails,
so a second stop-equivalent call on the resulting fields succeeds without side
effects; and when removal fails the error is returned while the handle is
still consumed. All paths are total functions, so no call panics. -/
theorem C4_stop_idempotent (s : NMState) (w w' : World) (t : WireguardTunnel)
    (e : NetworkManagerError) :
    (NetworkManagerTunnel.stop { s with tunnel := none } w
      = (.ok (), { s with tunnel := none }, [])) ∧
    ((NetworkManagerTunnel.stop s w).2.1.tunnel = none) ∧
    (NetworkManagerTunnel.stop (NetworkManagerTunnel.stop s w).2.1 w'
      = (.ok (), (NetworkManagerTunnel.stop s w).2.1, [])) ∧
    (NetworkManagerTunnel.stop ⟨some t, s.interface_name⟩
        { w with removeTunnel := fun _ => .error e }
      = (.error (.StopWireguardError e), ⟨none, s.interface_name⟩,
          [.removeTunnel t, .log .error "Failed to remove WireGuard tunnel via NM"])) := by
  have hcons : (NetworkManagerTunnel.stop s w).2.1.tunnel = none := by
    rw [NetworkManagerTunnel.stop]
    split
    · split
      · rfl
      · rfl
    · rename_i hnone
      exact hnone
  refine ⟨rfl, hcons, ?_, rfl⟩
  rw [NetworkManagerTunnel.stop, hcons]

/-- C5: `start_daita` always fails immediately with `DaitaNotSupported`,
returns the state unchanged, and performs no side effect, so a subsequent
`get_tunnel_stats` (and `get_interface_name`) behaves exactly as before the
call. -/
theorem C5_start_daita_rejected (s : NMState) (d : DaitaSettings) (w : World) :
    NetworkManagerTunnel.start_daita s d = (.error .DaitaNotSupported, s, []) ∧
    NetworkManagerTunnel.get_tunnel_stats (NetworkManagerTunnel.start_daita s d).2.1 w
      = NetworkManagerTunnel.get_tunnel_stats s w ∧
    NetworkManagerTunnel.get_interface_name (NetworkManagerTunnel.start_daita s d).2.1
      = NetworkManagerTunnel.get_interface_name s :=
  ⟨rfl, rfl, rfl⟩

/-- The netlink mutations among an operation's side effects. -/
def setDeviceEffects (l : List Effect) : List Effect :=
  l.filter (fun e => match e with
    | .setDevice _ _ => true
    | _ => false)

/-- C6: `set_config` stores no index in the backend state (its post-state is
the input state), and every call's netlink mutation uses the index freshly
resolved from the interface name in that call's world — so a second call
after the interface was recreated mutates at the new lookup's index, not a
cached one. -/
theorem C6_set_config_fresh_index (s : NMState) (cfg1 cfg2 : Config) (w1 w2 : World)
    (n : Nat) (h : w2.ifaceIndex s.interface_name = .ok n) :
    ((NetworkManagerTunnel.set_config s cfg1 w1).2.1 = s) ∧
    setDeviceEffects (NetworkManagerTunnel.set_config
        (NetworkManagerTunnel.set_config s cfg1 w1).2.1 cfg2 w2).2.2
      = [.setDevice n cfg2] := by
  have hstate : (NetworkManagerTunnel.set_config s cfg1 w1).2.1 = s := by
    rw [NetworkManagerTunnel.set_config]
    split
    · rfl
    · split
      · rfl
      · rfl
  refine ⟨hstate, ?_⟩
  rw [hstate, NetworkManagerTunnel.set_config, h]
  split
  · rename_i heq
    exact absurd heq (by simp)
  · rename_i index heq
    injection heq with hn
    subst hn
    split
    · rfl
    · rfl

/-- A world where every D-Bus and netlink call succeeds except the interface
name query, which NetworkManager refuses. -/
def C7World : World where
  nmNew := .ok ()
  createTunnel := fun _ => .ok ⟨1⟩
  getNMInterfaceName := fun _ => .error ⟨7⟩
  connect := .ok ()
  removeTunnel := fun _ => .ok ()
  ifaceIndex := fun _ => .ok 1
  getByName := fun _ => .error 0
  setDevice := fun _ _ => .ok ()

def C7Config : Config := ⟨⟨[], []⟩, 1280, none, []⟩

/-- C7 counterexample: when the interface name query fails during
construction, construction does proceed with the well-known fallback name,
but the failure is logged at error level (`log::error!`), not as a
warning-level condition: the only emitted log effect is error-level and no
warning-level log effect exists. -/
theorem C7_counterexample :
    (NetworkManagerTunnel.new C7World C7Config).1
        = .ok ⟨some ⟨1⟩, MULLVAD_INTERFACE_NAME⟩ ∧
    (NetworkManagerTunnel.new C7World C7Config).2
        = [.log .error "Failed to fetch interface name from NM"] ∧
    ¬ ∃ m, Effect.log .warn m ∈ (NetworkManagerTunnel.new C7World C7Config).2 := by
  refine ⟨rfl, rfl, ?_⟩
  rintro ⟨m, hm⟩
  rw [show (NetworkManagerTunnel.new C7World C7Config).2
      = [Effect.log .error "Failed to fetch interface name from NM"] from rfl] at hm
  simp at hm

/-- C7 (amended): if the interface name query fails while every other
construction step succeeds, construction still returns Ok, the backend's
interface name is the product's well-known default, the failure is logged at
error level rather than propagated, and `get_interface_name` returns that
fallback name. -/
theorem C7_fallback_name_error_log (w : World) (config : Config) (t : WireguardTunnel)
    (e : NetworkManagerError)
    (h1 : w.nmNew = .ok ())
    (h2 : w.createTunnel (convert_config_to_dbus config) = .ok t)
    (h3 : w.getNMInterfaceName t = .error e)
    (h4 : w.connect = .ok ()) :
    NetworkManagerTunnel.new w config
      = (.ok ⟨some t, MULLVAD_INTERFACE_NAME⟩,
          [.log .error "Failed to fetch interface name from NM"]) ∧
    NetworkManagerTunnel.get_interface_name ⟨some t, MULLVAD_INTERFACE_NAME⟩
      = MULLVAD_INTERFACE_NAME := by
  refine ⟨?_, rfl⟩
  simp only [NetworkManagerTunnel.new, h1, h2, h3, h4]

theorem C7_fallback_name_error_log_witness :
    NetworkManagerTunnel.new C7World C7Config
      = (.ok ⟨some ⟨1⟩, MULLVAD_INTERFACE_NAME⟩,
          [.log .error "Failed to fetch interface name from NM"]) ∧
    NetworkManagerTunnel.get_interface_name ⟨some ⟨1⟩, MULLVAD_INTERFACE_NAME⟩
      = MULLVAD_INTERFACE_NAME :=
  C7_fallback_name_error_log C7World C7Config ⟨1⟩ ⟨7⟩ rfl rfl rfl rfl

/-- C8: the four failure kinds the backend surfaces are pairwise distinct
values. Transport failure and service rejection are distinct `nm_tunnel`
error variants; capability rejection (`start_daita`), device-query failure
(`get_tunnel_stats`), config-apply failure (`set_config`) and profile-removal
failure (`stop`) surface four pairwise distinct `TunnelError` values, so a
caller can tell a control-plane service failure from a kernel rejection. -/
theorem C8_error_taxonomy (s : NMState) (w : World) (t : WireguardTunnel)
    (cfg : Config) (ds : DaitaSettings) (d : DbusError) (e e2 : NetworkManagerError)
    (k k2 : Nat)
    (hq : w.getByName s.interface_name = .error k)
    (hi : w.ifaceIndex s.interface_name = .error k2)
    (hr : w.removeTunnel t = .error e) :
    (NetworkManagerTunnel.start_daita s ds).1 = .error .DaitaNotSupported ∧
    (NetworkManagerTunnel.get_tunnel_stats s w).1 = .error .GetConfigError ∧
    (NetworkManagerTunnel.set_config s cfg w).1 = .error .SetConfigError ∧
    (NetworkManagerTunnel.stop ⟨some t, s.interface_name⟩ w).1
      = .error (.StopWireguardError e) ∧
    TunnelError.DaitaNotSupported ≠ TunnelError.GetConfigError ∧
    TunnelError.DaitaNotSupported ≠ TunnelError.SetConfigError ∧
    TunnelError.DaitaNotSupported ≠ TunnelError.StopWireguardError e ∧
    TunnelError.GetConfigError ≠ TunnelError.SetConfigError ∧
    TunnelError.GetConfigError ≠ TunnelError.StopWireguardError e ∧
    TunnelError.SetConfigError ≠ TunnelError.StopWireguardError e ∧
    NMTunnelError.dbus d ≠ NMTunnelError.networkManager e2 := by
  refine ⟨rfl, ?_, ?_, ?_, by simp, by simp, by simp, by simp, by simp, by simp, by simp⟩
  · rw [NetworkManagerTunnel.get_tunnel_stats, hq]
  · rw [NetworkManagerTunnel.set_config, hi]
  · rw [NetworkManagerTunnel.stop]
    show (match w.removeTunnel t with
      | Except.error err =>
          (Except.error (TunnelError.StopWireguardError err),
            ({ tunnel := none, interface_name := s.interface_name } : NMState),
            [Effect.removeTunnel t,
              Effect.log LogLevel.error "Failed to remove WireGuard tunnel via NM"])
      | Except.ok _ =>
          (Except.ok (), ({ tunnel := none, interface_name := s.interface_name } : NMState),
            [Effect.removeTunnel t])).1 = Except.error (TunnelError.StopWireguardError e)
    rw [hr]

/-- C9: `set_address` is change-driven and atomic. Setting the stored address
again returns Ok with no disk effect and an unchanged state; the in-memory
address survives any failed write (here: the `write_all` step fails), with the
error surfaced as `Error::Write`; and on a successful write the address is
updated only together with the finalized file holding the displayed address. -/
theorem C9_set_address_change_driven (s : ACState) (a : SocketAddr) (w wok : FsWorld)
    (p : String) (e : Nat)
    (hp : s.write_path = some p)
    (hopen : w.openFile p = .ok ())
    (hwrite : w.writeAll p = .error e)
    (hok1 : wok.openFile p = .ok ()) (hok2 : wok.writeAll p = .ok ())
    (hok3 : wok.finalize p = .ok ()) :
    (∀ w' : FsWorld, AddressCache.set_address s s.address w' = (.ok (), s, [])) ∧
    ((AddressCache.set_address s a w).2.1 = s) ∧
    ((AddressCache.set_address s a w).2.1.address = s.address) ∧
    (a ≠ s.address → AddressCache.set_address s a w = (.error (.Write e), s, [])) ∧
    (a ≠ s.address → AddressCache.set_address s a wok
      = (.ok (), { s with address := a }, [.finalized p (a.toDisplayString ++ "\n")])) := by
  have hsavefail : AddressCache.save_to_disk s a w = (.error (.Write e), []) := by
    rw [AddressCache.save_to_disk, hp]
    show (match w.openFile p with
      | Except.error e2 => (Except.error (ACError.Open e2), ([] : List FsEffect))
      | Except.ok _ =>
        match w.writeAll p with
        | Except.error e2 => (Except.error (ACError.Write e2), [])
        | Except.ok _ =>
          match w.finalize p with
          | Except.error e2 => (Except.error (ACError.Write e2), [])
          | Except.ok _ => (Except.ok (), [.finalized p (a.toDisplayString ++ "\n")]))
      = (Except.error (ACError.Write e), [])
    rw [hopen, hwrite]
  have hsaveok : AddressCache.save_to_disk s a wok
      = (.ok (), [.finalized p (a.toDisplayString ++ "\n")]) := by
    rw [AddressCache.save_to_disk, hp]
    show (match wok.openFile p with
      | Except.error e2 => (Except.error (ACError.Open e2), ([] : List FsEffect))
      | Except.ok _ =>
        match wok.writeAll p with
        | Except.error e2 => (Except.error (ACError.Write e2), [])
        | Except.ok _ =>
          match wok.finalize p with
          | Except.error e2 => (Except.error (ACError.Write e2), [])
          | Except.ok _ => (Except.ok (), [.finalized p (a.toDisplayString ++ "\n")]))
      = (Except.ok (), [.finalized p (a.toDisplayString ++ "\n")])
    rw [hok1, hok2, hok3]
  have hsame : ∀ w' : FsWorld, AddressCache.set_address s s.address w' = (.ok (), s, []) := by
    intro w'
    rw [AddressCache.set_address, if_neg (by simp)]
  have hfail : a ≠ s.address → AddressCache.set_address s a w = (.error (.Write e), s, []) := by
    intro hne
    rw [AddressCache.set_address, if_pos hne, hsavefail]
  have hkeep : (AddressCache.set_address s a w).2.1 = s := by
    by_cases hne : a ≠ s.address
    · rw [hfail hne]
    · rw [AddressCache.set_address, if_neg hne]
  refine ⟨hsame, hkeep, by rw [hkeep], hfail, ?_⟩
  intro hne
  rw [AddressCache.set_address, if_pos hne, hsaveok]

/-- C10: the interface name is fixed at construction: `set_config` and
`start_daita` leave the stored `interface_name` unchanged (and
`get_tunnel_stats` takes the backend by shared reference, with no
post-state), so `get_interface_name` returns the same string across
lifecycle operations. -/
theorem C10_interface_name_invariant (s : NMState) (config : Config) (d : DaitaSettings)
    (w : World) :
    ((NetworkManagerTunnel.set_config s config w).2.1.interface_name = s.interface_name) ∧
    ((NetworkManagerTunnel.start_daita s d).2.1.interface_name = s.interface_name) ∧
    (NetworkManagerTunnel.get_interface_name (NetworkManagerTunnel.set_config s config w).2.1
      = NetworkManagerTunnel.get_interface_name s) ∧
    (NetworkManagerTunnel.get_interface_name (NetworkManagerTunnel.start_daita s d).2.1
      = NetworkManagerTunnel.get_interface_name s) ∧
    (NetworkManagerTunnel.get_interface_name s = s.interface_name) := by
  have hstate : (NetworkManagerTunnel.set_config s config w).2.1 = s := by
    rw [NetworkManagerTunnel.set_config]
    split
    · rfl
    · split
      · rfl
      · rfl
  exact ⟨by rw [hstate], rfl, by rw [hstate], rfl, rfl⟩

/-! ## Concrete sample inputs for the witnesses -/

def C1Config : Config :=
  ⟨⟨List.range 32, [.v4 ⟨10, 64, 0, 2⟩ 32, .v6 ⟨[64768, 46, 0, 0, 0, 0, 0, 7]⟩ 128]⟩,
    1380, some 0,
    [⟨(List.range 32).map (fun i => (7 * i + 3) % 256),
      .v6 ⟨[8193, 3512, 0, 0, 0, 0, 0, 1]⟩ 51820 0 0,
      [.v4 ⟨0, 0, 0, 0⟩ 0, .v6 ⟨[0, 0, 0, 0, 0, 0, 0, 0]⟩ 0]⟩,
     ⟨(List.range 32).map (fun i => (11 * i + 1) % 256),
      .v4 ⟨185, 213, 154, 68⟩ 51820,
      [.v4 ⟨10, 64, 0, 0⟩ 16]⟩]⟩

theorem C1_peers_roundtrip_witness :
    (C1Config.Wf ∧ (∀ p ∈ C1Config.peers, p.endpoint.flowinfoZero) ∧
      C1Config.peers ≠ []) ∧
    (∃ wg pl,
      mapLookup "wireguard" (convert_config_to_dbus C1Config) = some wg ∧
      mapLookup "peers" wg = some (DbusValue.mapList pl) ∧
      pl.length = C1Config.peers.length ∧
      ∀ pr ∈ pl.zip C1Config.peers, peerEntryMatches pr.1 pr.2) :=
  ⟨⟨by decide, by decide, by decide⟩,
    C1_peers_roundtrip C1Config (by decide) (by decide) (by decide)⟩

def C3Config : Config :=
  ⟨⟨List.range 32, [.v4 ⟨10, 64, 0, 2⟩ 32, .v4 ⟨10, 64, 0, 3⟩ 16]⟩, 1380, none, []⟩

theorem C3_ipv6_section_omitted_witness :
    (∀ a ∈ C3Config.tunnel.addresses, a.isIpv4 = true) ∧
    (mapLookup "ipv6" (convert_config_to_dbus C3Config) = none ∧
     (mapLookup "ipv4" (convert_config_to_dbus C3Config)).bind (mapLookup "address-data") =
       some (DbusValue.addrList (C3Config.tunnel.addresses.filter (fun ip => ip.isIpv4))) ∧
     ∀ a ∈ C3Config.tunnel.addresses.filter (fun ip => ip.isIpv4), a.isIpv4 = true) :=
  ⟨by decide, C3_ipv6_section_omitted C3Config (by decide)⟩

def SampleConfig : Config := ⟨⟨List.range 32, []⟩, 1380, none, []⟩

def C6WorldA : World :=
  ⟨.ok (), fun _ => .ok ⟨1⟩, fun _ => .ok "wg-test", .ok (), fun _ => .ok (),
    fun _ => .ok 7, fun _ => .error 0, fun _ _ => .ok ()⟩

def C6WorldB : World :=
  ⟨.ok (), fun _ => .ok ⟨1⟩, fun _ => .ok "wg-test", .ok (), fun _ => .ok (),
    fun _ => .ok 9, fun _ => .error 0, fun _ _ => .ok ()⟩

def C6State : NMState := ⟨some ⟨1⟩, "wg-test"⟩

theorem C6_set_config_fresh_index_witness :
    (C6WorldB.ifaceIndex C6State.interface_name = .ok 9) ∧
    (((NetworkManagerTunnel.set_config C6State SampleConfig C6WorldA).2.1 = C6State) ∧
      setDeviceEffects (NetworkManagerTunnel.set_config
          (NetworkManagerTunnel.set_config C6State SampleConfig C6WorldA).2.1
          SampleConfig C6WorldB).2.2
        = [.setDevice 9 SampleConfig]) :=
  ⟨rfl, C6_set_config_fresh_index C6State SampleConfig SampleConfig C6WorldA C6WorldB 9 rfl⟩

def C8World : World :=
  ⟨.ok (), fun _ => .ok ⟨1⟩, fun _ => .ok "wg0-mullvad", .ok (), fun _ => .error ⟨3⟩,
    fun _ => .error 2, fun _ => .error 1, fun _ _ => .ok ()⟩

def C8State : NMState := ⟨some ⟨1⟩, "wg0-mullvad"⟩

theorem C8_error_taxonomy_witness :
    (C8World.getByName C8State.interface_name = .error 1 ∧
     C8World.ifaceIndex C8State.interface_name = .error 2 ∧
     C8World.removeTunnel ⟨1⟩ = .error ⟨3⟩) ∧
    ((NetworkManagerTunnel.start_daita C8State ⟨0⟩).1 = .error .DaitaNotSupported ∧
     (NetworkManagerTunnel.get_tunnel_stats C8State C8World).1 = .error .GetConfigError ∧
     (NetworkManagerTunnel.set_config C8State SampleConfig C8World).1
        = .error .SetConfigError ∧
     (NetworkManagerTunnel.stop ⟨some ⟨1⟩, C8State.interface_name⟩ C8World).1
        = .error (.StopWireguardError ⟨3⟩) ∧
     TunnelError.DaitaNotSupported ≠ TunnelError.GetConfigError ∧
     TunnelError.DaitaNotSupported ≠ TunnelError.SetConfigError ∧
     TunnelError.DaitaNotSupported ≠ TunnelError.StopWireguardError ⟨3⟩ ∧
     TunnelError.GetConfigError ≠ TunnelError.SetConfigError ∧
     TunnelError.GetConfigError ≠ TunnelError.StopWireguardError ⟨3⟩ ∧
     TunnelError.SetConfigError ≠ TunnelError.StopWireguardError ⟨3⟩ ∧
     NMTunnelError.dbus ⟨4⟩ ≠ NMTunnelError.networkManager ⟨5⟩) :=
  ⟨⟨rfl, rfl, rfl⟩,
    C8_error_taxonomy C8State C8World ⟨1⟩ SampleConfig ⟨0⟩ ⟨4⟩ ⟨3⟩ ⟨5⟩ 1 2 rfl rfl rfl⟩

def C9State : ACState :=
  ⟨"api.mullvad.net", .v4 ⟨45, 83, 223, 196⟩ 443,
    some "/var/cache/mullvad-vpn/api-ip-address.txt"⟩

def C9Addr : SocketAddr := .v4 ⟨45, 83, 223, 208⟩ 443

def C9WorldFail : FsWorld := ⟨fun _ => .ok (), fun _ => .error 28, fun _ => .ok ()⟩

def C9WorldOk : FsWorld := ⟨fun _ => .ok (), fun _ => .ok (), fun _ => .ok ()⟩

theorem C9_set_address_change_driven_witness :
    (C9State.write_path = some "/var/cache/mullvad-vpn/api-ip-address.txt" ∧
     C9WorldFail.writeAll "/var/cache/mullvad-vpn/api-ip-address.txt" = .error 28) ∧
    ((∀ w' : FsWorld, AddressCache.set_address C9State C9State.address w'
        = (.ok (), C9State, [])) ∧
     ((AddressCache.set_address C9State C9Addr C9WorldFail).2.1 = C9State) ∧
     ((AddressCache.set_address C9State C9Addr C9WorldFail).2.1.address
        = C9State.address) ∧
     (C9Addr ≠ C9State.address →
       AddressCache.set_address C9State C9Addr C9WorldFail
         = (.error (.Write 28), C9State, [])) ∧
     (C9Addr ≠ C9State.address →
       AddressCache.set_address C9State C9Addr C9WorldOk
         = (.ok (), { C9State with address := C9Addr },
             [.finalized "/var/cache/mullvad-vpn/api-ip-address.txt"
               (C9Addr.toDisplayString ++ "\n")]))) :=
  ⟨⟨rfl, rfl⟩,
    C9_set_address_change_driven C9State C9Addr C9WorldFail C9WorldOk
      "/var/cache/mullvad-vpn/api-ip-address.txt" 28 rfl rfl rfl rfl rfl rfl⟩

/-- A peer whose IPv6 endpoint carries a nonzero `flowinfo` (7): a legal
`SocketAddrV6`, displayed as `[2001:db8::1]:51820` with the `flowinfo`
omitted. -/
def C1FlowPeer : Peer :=
  ⟨(List.range 32).map (fun i => (7 * i + 3) % 256),
    .v6 ⟨[8193, 3512, 0, 0, 0, 0, 0, 1]⟩ 51820 7 0,
    [.v4 ⟨0, 0, 0, 0⟩ 0]⟩

def C1FlowConfig : Config :=
  ⟨⟨List.range 32, [.v4 ⟨10, 64, 0, 2⟩ 32]⟩, 1380, none, [C1FlowPeer]⟩

/-- The wire-schema peer entry `convert_config_to_dbus` builds for
`C1FlowPeer`. -/
def C1FlowPM : VariantMap :=
  [("public-key", DbusValue.str (keyToBase64 C1FlowPeer.public_key)),
   ("endpoint", DbusValue.str C1FlowPeer.endpoint.toDisplayString),
   ("allowed-ips", DbusValue.strList (C1FlowPeer.allowed_ips.map
     (fun ip => ip.toDisplayString)))]

/-- The `wireguard` section `convert_config_to_dbus` builds for
`C1FlowConfig`. -/
def C1FlowWG : VariantMap :=
  [("peers", DbusValue.mapList [C1FlowPM]),
   ("private-key-flags", DbusValue.u32 0),
   ("private-key", DbusValue.str (keyToBase64 C1FlowConfig.tunnel.private_key)),
   ("peer-routes", DbusValue.boolean false),
   ("mtu", DbusValue.u32 C1FlowConfig.mtu)]

/-- C1 counterexample: `C1FlowConfig` is a well-formed Config with one peer,
but the claimed bit-for-bit round trip fails on it: the peer's endpoint has
`flowinfo` 7, which the endpoint string does not carry, so the string parses
back to the endpoint with `flowinfo` 0 — not the original value. -/
theorem C1_flowinfo_counterexample :
    (C1FlowConfig.Wf ∧ C1FlowConfig.peers ≠ []) ∧
    ¬ (∃ wg pl,
        mapLookup "wireguard" (convert_config_to_dbus C1FlowConfig) = some wg ∧
        mapLookup "peers" wg = some (DbusValue.mapList pl) ∧
        pl.length = C1FlowConfig.peers.length ∧
        ∀ pr ∈ pl.zip C1FlowConfig.peers, peerEntryMatches pr.1 pr.2) := by
  refine ⟨⟨by decide, by decide⟩, ?_⟩
  rintro ⟨wg, pl, hwg, hpl, hlen, hall⟩
  rw [show mapLookup "wireguard" (convert_config_to_dbus C1FlowConfig) = some C1FlowWG
    from rfl] at hwg
  have hwgeq : C1FlowWG = wg := Option.some.inj hwg
  subst hwgeq
  rw [show mapLookup "peers" C1FlowWG = some (DbusValue.mapList [C1FlowPM]) from rfl] at hpl
  have hpleq := Option.some.inj hpl
  injection hpleq with hpleq2
  subst hpleq2
  have hm := hall (C1FlowPM, C1FlowPeer) (List.Mem.head _)
  obtain ⟨-, ⟨es, hes, hparse⟩, -⟩ := hm
  rw [show mapLookup "endpoint" C1FlowPM
    = some (DbusValue.str C1FlowPeer.endpoint.toDisplayString) from rfl] at hes
  have heseq := Option.some.inj hes
  injection heseq with heseq2
  subst heseq2
  rw [show (SocketAddr.toDisplayString C1FlowPeer.endpoint).data
    = C1FlowPeer.endpoint.display from rfl] at hparse
  have hround := parseSocketAddr_display C1FlowPeer.endpoint (by decide)
  have hcl := Option.some.inj (hround.symm.trans hparse)
  exact absurd hcl (by decide)
